import Mathlib

/-!
Verification of the ReWear exchange engine (backend/routes/swaps.js,
backend/routes/items.js, backend/routes/admin.js, backend/models/Swap.js,
backend/models/User.js) against its natural-language specification.

The embedding below is a shallow state-machine model of the request
handlers: MongoDB collections become explicit maps in a `DB` record, each
Express route handler becomes a function `DB → Except Err DB`, and the
wall clock becomes a logical `now : Nat` advanced by an explicit `tick`
step.  JavaScript numbers holding point balances are modelled as `Int`
(the code mutates them with raw `$inc` updates that bypass the schema
validators, so they can go negative); monotone counters and item
valuations are `Nat`.
-/

namespace ReWear

/-- Availability states of an item document (field `status` of the Item
schema): `active`, `pending` (moderation), `sold`, `removed`, `flagged`. -/
inductive ItemStatus
  | active
  | pending
  | sold
  | removed
  | flagged
deriving DecidableEq, Repr

/-- An item document (the fields the exchange engine reads). -/
structure ItemRec where
  owner : Nat
  points : Nat
  status : ItemStatus
  isRedeemable : Bool
deriving DecidableEq, Repr

/-- User roles (field `role` of the User schema). -/
inductive Role
  | user
  | admin
deriving DecidableEq, Repr

/-- The `stats` subdocument of a User.  All counters are mutated with
`$inc`, which in MongoDB can drive them below zero (e.g. the item-delete
route decrements `itemsListed`), so they are modelled as `Int`. -/
structure Stats where
  itemsListed : Int
  swapsCompleted : Int
  totalPointsEarned : Int
  totalPointsSpent : Int
deriving DecidableEq, Repr

/-- A user document (the fields the exchange engine reads/writes). -/
structure UserRec where
  points : Int
  stats : Stats
  achievements : List String
  role : Role
deriving DecidableEq, Repr

/-- Timeline actions (the enum of `timeline.action` in the Swap schema). -/
inductive TAction
  | created
  | accepted
  | rejected
  | shipped
  | received
  | completed
  | cancelled
  | disputed
deriving DecidableEq, Repr

/-- One timeline entry of a swap. -/
structure TEntry where
  action : TAction
  user : Option Nat
  timestamp : Nat
  details : String
deriving DecidableEq, Repr

/-- The `shipping` subdocument of a Swap. -/
structure Shipping where
  initiatorTracking : Option String
  recipientTracking : Option String
  initiatorShippedAt : Option Nat
  recipientShippedAt : Option Nat
  initiatorReceivedAt : Option Nat
  recipientReceivedAt : Option Nat
deriving DecidableEq, Repr

/-- Dispute status enum (the Lean keyword forces `opn` for `open`). -/
inductive DStatus
  | opn
  | resolved
  | closed
deriving DecidableEq, Repr

/-- The `dispute` subdocument of a Swap; `status = none` models a swap on
which no dispute has ever been raised. -/
structure DisputeRec where
  raisedBy : Option Nat
  reason : Option String
  description : Option String
  status : Option DStatus
  adminNotes : Option String
  resolvedBy : Option Nat
  resolvedAt : Option Nat
deriving DecidableEq, Repr

/-- Exchange type (`swap` = item for item, `redeem` = points for item). -/
inductive SwapType
  | swap
  | redeem
deriving DecidableEq, Repr

/-- Exchange lifecycle status. -/
inductive SwapStatus
  | pending
  | accepted
  | rejected
  | completed
  | cancelled
deriving DecidableEq, Repr

/-- A per-party rating attached to a completed swap. -/
structure RatingRec where
  rating : Nat
  comment : Option String
  createdAt : Nat
deriving DecidableEq, Repr

/-- A swap (exchange) document. -/
structure SwapRec where
  id : Nat
  initiator : Nat
  recipient : Nat
  initiatorItem : Option Nat
  recipientItem : Nat
  type : SwapType
  status : SwapStatus
  points : Nat
  message : Option String
  initiatorRating : Option RatingRec
  recipientRating : Option RatingRec
  shipping : Shipping
  dispute : DisputeRec
  timeline : List TEntry
  expiresAt : Nat
deriving DecidableEq, Repr

/-- The whole persistent state: the users and items collections as maps,
the swaps collection as a list in insertion order, a fresh-id counter for
swaps and the current wall-clock time in milliseconds. -/
structure DB where
  users : Nat → UserRec
  items : Nat → Option ItemRec
  swaps : List SwapRec
  nextSwapId : Nat
  now : Nat

/-- Typed errors corresponding to the error responses of the routes. -/
inductive Err
  | notFound
  | itemUnavailable
  | selfTrade
  | initiatorItemInvalid
  | insufficientPoints
  | duplicateActiveRequest
  | notAuthorized
  | invalidStateTransition
  | alreadyRated
  | disputeAlreadyOpen
  | disputeNotOpen
  | notRedeemable
deriving DecidableEq, Repr

/-- The 7-day expiry window of the Swap schema, in milliseconds. -/
def expiryWindow : Nat := 7 * 24 * 60 * 60 * 1000

/-- Point-free update of a single user document. -/
def updUser (db : DB) (uid : Nat) (f : UserRec → UserRec) : DB :=
  { db with users := fun u => if u = uid then f (db.users u) else db.users u }

/-- Update of a single item document (no-op when the item is absent). -/
def updItem (db : DB) (iid : Nat) (f : ItemRec → ItemRec) : DB :=
  { db with items := fun i => if i = iid then (db.items i).map f else db.items i }

/-- Item.findByIdAndUpdate(id, \x7b status \x7d). -/
def setItemStatus (db : DB) (iid : Nat) (st : ItemStatus) : DB :=
  updItem db iid (fun it => { it with status := st })

/-- Update of a single swap document by id. -/
def updSwap (db : DB) (sid : Nat) (f : SwapRec → SwapRec) : DB :=
  { db with swaps := db.swaps.map (fun w => if w.id = sid then f w else w) }

/-- Swap.findById. -/
def findSwap (db : DB) (sid : Nat) : Option SwapRec :=
  db.swaps.find? (fun w => w.id == sid)

/-- A `$inc` that adds `amt` to `points` and to `stats.totalPointsEarned`
(the shape used by every credit in the routes). -/
def incEarn (db : DB) (uid : Nat) (amt : Nat) : DB :=
  updUser db uid (fun u =>
    { u with
      points := u.points + amt
      stats := { u.stats with totalPointsEarned := u.stats.totalPointsEarned + amt } })

/-- A `$inc` that subtracts `amt` from `points` and adds it to
`stats.totalPointsSpent` (the shape used by every debit in the routes). -/
def incSpend (db : DB) (uid : Nat) (amt : Nat) : DB :=
  updUser db uid (fun u =>
    { u with
      points := u.points - amt
      stats := { u.stats with totalPointsSpent := u.stats.totalPointsSpent + amt } })

/-- The milestone configuration of User.checkMilestones: for each stats
metric, the (threshold, bonus) pairs. -/
def milestoneTable : List (String × List (Nat × Nat)) :=
  [("itemsListed", [(5, 50), (10, 100), (25, 250), (50, 500)]),
   ("swapsCompleted", [(3, 75), (10, 200), (25, 500), (50, 1000)]),
   ("totalPointsEarned", [(100, 100), (500, 250), (1000, 500), (2500, 1000)])]

/-- Lookup this.stats[milestone.type]. -/
def statValue (u : UserRec) (ty : String) : Int :=
  if ty = "itemsListed" then u.stats.itemsListed
  else if ty = "swapsCompleted" then u.stats.swapsCompleted
  else u.stats.totalPointsEarned

/-- The two loops of User.checkMilestones: returns the new achievements
list and the accumulated bonus.  Every threshold is evaluated against the
stats as they were at call entry; achievements accumulate left to right. -/
def milestoneScan (u : UserRec) : List String × Nat :=
  milestoneTable.foldl
    (fun acc m =>
      let cur := statValue u m.1
      m.2.foldl
        (fun acc2 lp =>
          let key := m.1 ++ "_" ++ toString lp.1
          if (lp.1 : Int) ≤ cur ∧ acc2.1.contains key = false then
            (acc2.1 ++ [key], acc2.2 + lp.2)
          else acc2)
        acc)
    (u.achievements, 0)

/-- User.checkMilestones, as a pure transformation of one user document:
when the accumulated bonus is positive, add it to both `points` and
`stats.totalPointsEarned` and persist the new achievements. -/
def checkMilestonesU (u : UserRec) : UserRec :=
  let scan := milestoneScan u
  if 0 < scan.2 then
    { u with
      points := u.points + scan.2
      achievements := scan.1
      stats := { u.stats with totalPointsEarned := u.stats.totalPointsEarned + scan.2 } }
  else u

/-- user.checkMilestones() applied to a user id in the database. -/
def checkMilestones (db : DB) (uid : Nat) : DB :=
  updUser db uid checkMilestonesU

/-- The duplicate-request guard predicate of POST /api/swaps: a swap is an
active pending request for item `i` when it references `i` as recipient
item, its status is pending, and its expiry timestamp is still in the
future (the Mongo query status: pending, expiresAt: \x7b $gt: now \x7d). -/
def activePendingB (now : Nat) (i : Nat) (w : SwapRec) : Bool :=
  decide (w.recipientItem = i ∧ w.status = SwapStatus.pending ∧ now < w.expiresAt)

/-- Number of active pending requests referencing item `i`. -/
def pendingCount (db : DB) (i : Nat) : Nat :=
  db.swaps.countP (activePendingB db.now i)

/-- The swap document constructed by POST /api/swaps; the single `created`
timeline entry is appended by the schema pre-save hook. -/
def freshSwap (db : DB) (actor : Nat) (rItem : ItemRec) (rItemId : Nat)
    (ty : SwapType) (initItemId : Option Nat) (message : Option String) : SwapRec :=
  { id := db.nextSwapId
    initiator := actor
    recipient := rItem.owner
    initiatorItem := if ty = SwapType.swap then initItemId else none
    recipientItem := rItemId
    type := ty
    status := SwapStatus.pending
    points := match ty with | SwapType.redeem => rItem.points | SwapType.swap => 0
    message := message
    initiatorRating := none
    recipientRating := none
    shipping := ⟨none, none, none, none, none, none⟩
    dispute := ⟨none, none, none, none, none, none, none⟩
    timeline := [⟨TAction.created, some actor, db.now, "Swap request created"⟩]
    expiresAt := db.now + expiryWindow }

/-- The tail of POST /api/swaps once the item and type-specific checks
have passed: reject when a pending unexpired swap already references the
item, otherwise insert the new swap document. -/
def finishCreate (db : DB) (actor : Nat) (rItem : ItemRec) (rItemId : Nat)
    (ty : SwapType) (initItemId : Option Nat) (message : Option String) :
    Except Err DB :=
  if db.swaps.any (activePendingB db.now rItemId) then
    .error .duplicateActiveRequest
  else
    .ok { db with
          swaps := db.swaps ++ [freshSwap db actor rItem rItemId ty initItemId message]
          nextSwapId := db.nextSwapId + 1 }

/-- POST /api/swaps (create swap request).  Checks, in route order: the
recipient item exists and is active, the caller is not its owner, the
type-specific precondition (initiator item supplied, owned and active for
swap; sufficient points for redeem), and that no pending unexpired swap
already references the item.  On success appends the new swap document. -/
def createSwap (db : DB) (actor : Nat) (rItemId : Nat) (ty : SwapType)
    (initItemId : Option Nat) (message : Option String) : Except Err DB :=
  match db.items rItemId with
  | none => .error .notFound
  | some rItem =>
    if rItem.status ≠ ItemStatus.active then .error .itemUnavailable
    else if rItem.owner = actor then .error .selfTrade
    else
      match ty with
      | SwapType.swap =>
        match initItemId with
        | none => .error .initiatorItemInvalid
        | some iid =>
          match db.items iid with
          | none => .error .notFound
          | some iItem =>
            if iItem.owner ≠ actor then .error .notAuthorized
            else if iItem.status ≠ ItemStatus.active then .error .initiatorItemInvalid
            else finishCreate db actor rItem rItemId ty initItemId message
      | SwapType.redeem =>
        if (db.users actor).points < (rItem.points : Int) then .error .insufficientPoints
        else finishCreate db actor rItem rItemId ty initItemId message

/-- The success tail of PUT /api/swaps/:id/accept: mark the swap accepted,
mark both items sold, then move points (full transfer of the swap amount
for redeem, with no re-check of the initiator's balance; a
25-percent-of-combined-valuation goodwill credit to each party for swap
type). -/
def acceptResult (db : DB) (actor : Nat) (sid : Nat) (w : SwapRec) : DB :=
  let db1 := updSwap db sid (fun v =>
    { v with
      status := SwapStatus.accepted
      timeline := v.timeline ++ [⟨TAction.accepted, some actor, db.now, "Swap accepted"⟩] })
  let db2 := setItemStatus db1 w.recipientItem ItemStatus.sold
  let db3 :=
    match w.initiatorItem with
    | some iid => setItemStatus db2 iid ItemStatus.sold
    | none => db2
  match w.type with
  | SwapType.redeem =>
    incEarn (incSpend db3 w.initiator w.points) w.recipient w.points
  | SwapType.swap =>
    let rp := ((db3.items w.recipientItem).map ItemRec.points).getD 0
    let ip := ((w.initiatorItem.bind db3.items).map ItemRec.points).getD 0
    let credit := (rp + ip) / 4
    incEarn (incEarn db3 w.initiator credit) w.recipient credit

/-- PUT /api/swaps/:id/accept.  Recipient-only; requires status pending. -/
def acceptSwap (db : DB) (actor : Nat) (sid : Nat) : Except Err DB :=
  match findSwap db sid with
  | none => .error .notFound
  | some w =>
    if w.recipient ≠ actor then .error .notAuthorized
    else if w.status ≠ SwapStatus.pending then .error .invalidStateTransition
    else .ok (acceptResult db actor sid w)

/-- PUT /api/swaps/:id/reject.  Recipient-only; requires status pending.
Only flips the status and appends a timeline entry (the item document is
untouched). -/
def rejectSwap (db : DB) (actor : Nat) (sid : Nat) : Except Err DB :=
  match findSwap db sid with
  | none => .error .notFound
  | some w =>
    if w.recipient ≠ actor then .error .notAuthorized
    else if w.status ≠ SwapStatus.pending then .error .invalidStateTransition
    else
      .ok (updSwap db sid (fun v =>
        { v with
          status := SwapStatus.rejected
          timeline := v.timeline ++ [⟨TAction.rejected, some actor, db.now, "Swap rejected"⟩] }))

/-- The success tail of PUT /api/swaps/:id/ship: record tracking data and
a shipped entry on the caller's side. -/
def shipResult (db : DB) (actor : Nat) (sid : Nat) (w : SwapRec)
    (tracking : Option String) : DB :=
  if w.initiator = actor then
    updSwap db sid (fun v =>
      { v with
        shipping := { v.shipping with
                      initiatorTracking := tracking
                      initiatorShippedAt := some db.now }
        timeline := v.timeline ++
          [⟨TAction.shipped, some actor, db.now, "Initiator shipped item"⟩] })
  else
    updSwap db sid (fun v =>
      { v with
        shipping := { v.shipping with
                      recipientTracking := tracking
                      recipientShippedAt := some db.now }
        timeline := v.timeline ++
          [⟨TAction.shipped, some actor, db.now, "Recipient shipped item"⟩] })

/-- PUT /api/swaps/:id/ship.  Either party; requires status accepted. -/
def markShipped (db : DB) (actor : Nat) (sid : Nat) (tracking : Option String) :
    Except Err DB :=
  match findSwap db sid with
  | none => .error .notFound
  | some w =>
    if w.initiator ≠ actor ∧ w.recipient ≠ actor then .error .notAuthorized
    else if w.status ≠ SwapStatus.accepted then .error .invalidStateTransition
    else .ok (shipResult db actor sid w tracking)

/-- The swap-document part of markReceived: record the caller's received
timestamp, append a received entry, and when both timestamps are present
flip the status to completed and append a completed entry. -/
def recvUpd (actor : Nat) (now : Nat) (v : SwapRec) : SwapRec :=
  let v1 :=
    if v.initiator = actor then
      { v with
        shipping := { v.shipping with initiatorReceivedAt := some now }
        timeline := v.timeline ++
          [⟨TAction.received, some actor, now, "Initiator received item"⟩] }
    else
      { v with
        shipping := { v.shipping with recipientReceivedAt := some now }
        timeline := v.timeline ++
          [⟨TAction.received, some actor, now, "Recipient received item"⟩] }
  if v1.shipping.initiatorReceivedAt.isSome ∧ v1.shipping.recipientReceivedAt.isSome then
    { v1 with
      status := SwapStatus.completed
      timeline := v1.timeline ++
        [⟨TAction.completed, none, now, "Swap completed successfully"⟩] }
  else v1

/-- The completion bonus block of PUT /api/swaps/:id/receive for one
member: +20 completion bonus plus +50 when the count of completed swaps
involving this member (including the one just completed) equals one. -/
def completedBonus (db : DB) (uid : Nat) : DB :=
  let cnt := db.swaps.countP (fun v =>
    decide ((v.initiator = uid ∨ v.recipient = uid) ∧ v.status = SwapStatus.completed))
  let bonus : Nat := 20 + (if cnt = 1 then 50 else 0)
  updUser db uid (fun u =>
    { u with
      points := u.points + bonus
      stats := { u.stats with
                 swapsCompleted := u.stats.swapsCompleted + 1
                 totalPointsEarned := u.stats.totalPointsEarned + bonus } })

/-- The success tail of PUT /api/swaps/:id/receive: apply recvUpd to the
swap; when that completes the swap, pay both members the completion (and
possibly first-completion) bonus and run a milestone recalculation for
each. -/
def receiveResult (db : DB) (actor : Nat) (sid : Nat) (w : SwapRec) : DB :=
  let db1 := updSwap db sid (recvUpd actor db.now)
  if (recvUpd actor db.now w).status = SwapStatus.completed then
    let db2 := completedBonus db1 w.initiator
    let db3 := completedBonus db2 w.recipient
    let db4 := checkMilestones db3 w.initiator
    checkMilestones db4 w.recipient
  else db1

/-- PUT /api/swaps/:id/receive.  Either party; requires status accepted. -/
def markReceived (db : DB) (actor : Nat) (sid : Nat) : Except Err DB :=
  match findSwap db sid with
  | none => .error .notFound
  | some w =>
    if w.initiator ≠ actor ∧ w.recipient ≠ actor then .error .notAuthorized
    else if w.status ≠ SwapStatus.accepted then .error .invalidStateTransition
    else .ok (receiveResult db actor sid w)

/-- POST /api/swaps/:id/rate.  Either party; requires status completed and
at most one rating per party.  Mutates only the rating slot: no timeline
entry is appended. -/
def addRating (db : DB) (actor : Nat) (sid : Nat) (rating : Nat)
    (comment : Option String) : Except Err DB :=
  match findSwap db sid with
  | none => .error .notFound
  | some w =>
    if w.initiator ≠ actor ∧ w.recipient ≠ actor then .error .notAuthorized
    else if w.status ≠ SwapStatus.completed then .error .invalidStateTransition
    else if w.initiator = actor then
      if w.initiatorRating.isSome then .error .alreadyRated
      else .ok (updSwap db sid (fun v =>
        { v with initiatorRating := some ⟨rating, comment, db.now⟩ }))
    else
      if w.recipientRating.isSome then .error .alreadyRated
      else .ok (updSwap db sid (fun v =>
        { v with recipientRating := some ⟨rating, comment, db.now⟩ }))

/-- POST /api/swaps/:id/dispute.  Either party; requires status accepted
or completed and no open dispute. -/
def raiseDispute (db : DB) (actor : Nat) (sid : Nat) (reason : String)
    (description : String) : Except Err DB :=
  match findSwap db sid with
  | none => .error .notFound
  | some w =>
    if w.initiator ≠ actor ∧ w.recipient ≠ actor then .error .notAuthorized
    else if w.status ≠ SwapStatus.accepted ∧ w.status ≠ SwapStatus.completed then
      .error .invalidStateTransition
    else if w.dispute.status = some DStatus.opn then .error .disputeAlreadyOpen
    else
      .ok (updSwap db sid (fun v =>
        { v with
          dispute := ⟨some actor, some reason, some description, some DStatus.opn,
                      none, none, none⟩
          timeline := v.timeline ++
            [⟨TAction.disputed, some actor, db.now, "Dispute raised: " ++ reason⟩] }))

/-- Dispute resolution outcomes of PUT /api/admin/swaps/:id/resolve-dispute
(partRefund is the partial-refund outcome; the hyphenated source names are
not valid Lean identifiers). -/
inductive Resolution
  | favorInitiator
  | favorRecipient
  | partRefund
  | cancel
deriving DecidableEq, Repr

/-- The success tail of PUT /api/admin/swaps/:id/resolve-dispute:
favor-initiator and cancel set both items back to active and the swap to
cancelled; favor-recipient only sets the swap to completed; partial-refund
on a redeem swap credits the initiator with half the swap amount (no
counter update and no recipient debit) and sets the swap to completed.
The dispute subdocument is marked resolved.  No timeline entry is
appended. -/
def resolveResult (db : DB) (actor : Nat) (sid : Nat) (res : Resolution)
    (notes : String) (w : SwapRec) : DB :=
  let db1 :=
    match res with
    | Resolution.favorInitiator | Resolution.cancel =>
      let d := setItemStatus db w.recipientItem ItemStatus.active
      match w.initiatorItem with
      | some iid => setItemStatus d iid ItemStatus.active
      | none => d
    | Resolution.favorRecipient => db
    | Resolution.partRefund =>
      if w.type = SwapType.redeem then
        updUser db w.initiator (fun u =>
          { u with points := u.points + ((w.points / 2 : Nat) : Int) })
      else db
  let newStatus :=
    match res with
    | Resolution.favorInitiator | Resolution.cancel => SwapStatus.cancelled
    | Resolution.favorRecipient | Resolution.partRefund => SwapStatus.completed
  updSwap db1 sid (fun v =>
    { v with
      status := newStatus
      dispute := { v.dispute with
                   status := some DStatus.resolved
                   adminNotes := some notes
                   resolvedBy := some actor
                   resolvedAt := some db.now } })

/-- PUT /api/admin/swaps/:id/resolve-dispute.  Admin-only; requires an
open dispute. -/
def resolveDispute (db : DB) (actor : Nat) (sid : Nat) (res : Resolution)
    (notes : String) : Except Err DB :=
  if (db.users actor).role ≠ Role.admin then .error .notAuthorized
  else
    match findSwap db sid with
    | none => .error .notFound
    | some w =>
      if w.dispute.status ≠ some DStatus.opn then .error .disputeNotOpen
      else .ok (resolveResult db actor sid res notes w)

/-- The already-completed swap document created by POST /api/items/:id/buy;
the pre-save hook appends a third (created) timeline entry to the two the
route supplies. -/
def purchaseSwap (db : DB) (actor : Nat) (iid : Nat) (item : ItemRec) : SwapRec :=
  { id := db.nextSwapId
    initiator := actor
    recipient := item.owner
    initiatorItem := none
    recipientItem := iid
    type := SwapType.redeem
    status := SwapStatus.completed
    points := item.points
    message := some "Direct purchase with points"
    initiatorRating := none
    recipientRating := none
    shipping := ⟨none, none, none, none, none, none⟩
    dispute := ⟨none, none, none, none, none, none, none⟩
    timeline := [⟨TAction.created, some actor, db.now, "Direct purchase with points"⟩,
                 ⟨TAction.completed, some actor, db.now, "Purchase completed"⟩,
                 ⟨TAction.created, some actor, db.now, "Swap request created"⟩]
    expiresAt := db.now + expiryWindow }

/-- The success tail of POST /api/items/:id/buy: debit the buyer, credit
the owner, mark the item sold, insert a completed swap record, and pay
the one-time first-purchase bonus when the buyer's completed redeem count
(including this record) equals one. -/
def buyResult (db : DB) (actor : Nat) (iid : Nat) (item : ItemRec) : DB :=
  let db1 := incSpend db actor item.points
  let db2 := incEarn db1 item.owner item.points
  let db3 := setItemStatus db2 iid ItemStatus.sold
  let db4 : DB := { db3 with
                    swaps := db3.swaps ++ [purchaseSwap db actor iid item]
                    nextSwapId := db3.nextSwapId + 1 }
  let cnt : Nat := db4.swaps.countP (fun v =>
    decide (v.initiator = actor ∧ v.type = SwapType.redeem ∧
      v.status = SwapStatus.completed))
  if cnt = 1 then incEarn db4 actor 25 else db4

/-- POST /api/items/:id/buy (direct purchase).  Validates availability,
redeemability, non-self-trade and balance. -/
def buyItem (db : DB) (actor : Nat) (iid : Nat) : Except Err DB :=
  match db.items iid with
  | none => .error .notFound
  | some item =>
    if item.status ≠ ItemStatus.active then .error .itemUnavailable
    else if item.isRedeemable = false then .error .notRedeemable
    else if item.owner = actor then .error .selfTrade
    else if (db.users actor).points < (item.points : Int) then .error .insufficientPoints
    else .ok (buyResult db actor iid item)

/-- The success tail of DELETE /api/items/:id: remove the item document
and decrement the owner's itemsListed counter. -/
def deleteResult (db : DB) (actor : Nat) (iid : Nat) : DB :=
  let db1 := { db with items := fun i => if i = iid then none else db.items i }
  updUser db1 actor (fun u =>
    { u with stats := { u.stats with itemsListed := u.stats.itemsListed - 1 } })

/-- DELETE /api/items/:id.  Owner-only.  The handler contains only a TODO
comment where the active-swap check should be: the item is deleted
unconditionally and the owner's itemsListed counter decremented. -/
def deleteItem (db : DB) (actor : Nat) (iid : Nat) : Except Err DB :=
  match db.items iid with
  | none => .error .notFound
  | some item =>
    if item.owner ≠ actor then .error .notAuthorized
    else .ok (deleteResult db actor iid)

/-- The requests the exchange engine exposes, plus a tick step that
advances the wall clock. -/
inductive Op
  | create (actor rItemId : Nat) (ty : SwapType) (initItemId : Option Nat)
      (message : Option String)
  | accept (actor sid : Nat)
  | reject (actor sid : Nat)
  | ship (actor sid : Nat) (tracking : Option String)
  | receive (actor sid : Nat)
  | rate (actor sid rating : Nat) (comment : Option String)
  | dispute (actor sid : Nat) (reason description : String)
  | resolve (actor sid : Nat) (res : Resolution) (notes : String)
  | buy (actor iid : Nat)
  | destroyItem (actor iid : Nat)
  | tick (d : Nat)

/-- Dispatch one request against the database. -/
def applyOp (db : DB) : Op → Except Err DB
  | Op.create a r ty ii m => createSwap db a r ty ii m
  | Op.accept a s => acceptSwap db a s
  | Op.reject a s => rejectSwap db a s
  | Op.ship a s t => markShipped db a s t
  | Op.receive a s => markReceived db a s
  | Op.rate a s r c => addRating db a s r c
  | Op.dispute a s r d => raiseDispute db a s r d
  | Op.resolve a s r n => resolveDispute db a s r n
  | Op.buy a i => buyItem db a i
  | Op.destroyItem a i => deleteItem db a i
  | Op.tick d => .ok { db with now := db.now + d }

/-- Run one request; a failed request leaves the database unchanged. -/
def runOp (db : DB) (o : Op) : DB := ((applyOp db o).toOption).getD db

/-- Run a sequence of requests. -/
def runOps (db : DB) (ops : List Op) : DB := ops.foldl runOp db

/-- States reachable from a given state by successful requests. -/
inductive Reachable : DB → DB → Prop
  | refl (s : DB) : Reachable s s
  | step {s t u : DB} {o : Op} : Reachable s t → applyOp t o = Except.ok u →
      Reachable s u

/-- One ledger-shaped user mutation: the points delta is exactly the
earned-counter delta minus the spent-counter delta, and every other stats
field is arbitrary.  Every user update in the routes except the
partial-refund credit has this shape. -/
def LedgerStep (u v : UserRec) : Prop :=
  ∃ e s : Nat,
    v.points = u.points + e - s ∧
    v.stats.totalPointsEarned = u.stats.totalPointsEarned + e ∧
    v.stats.totalPointsSpent = u.stats.totalPointsSpent + s

/-- A user with no points, empty history and the default role. -/
def baseUser : UserRec :=
  { points := 0, stats := ⟨0, 0, 0, 0⟩, achievements := [], role := Role.user }

/-- A placeholder swap document used as a getD default. -/
def defaultSwap : SwapRec :=
  { id := 0, initiator := 0, recipient := 0, initiatorItem := none,
    recipientItem := 0, type := SwapType.swap, status := SwapStatus.pending,
    points := 0, message := none, initiatorRating := none, recipientRating := none,
    shipping := ⟨none, none, none, none, none, none⟩,
    dispute := ⟨none, none, none, none, none, none, none⟩,
    timeline := [], expiresAt := 0 }

/-- Concrete state for the ledger and dispute claims: member 1 holds 40
points (all recorded as lifetime earnings, so the ledger equality holds
initially), member 9 is an admin, item 10 (40 points) belongs to member 2
and item 11 (40 points) to member 3; both items are active and
redeemable. -/
def dbA : DB :=
  { users := fun u =>
      if u = 1 then { baseUser with points := 40, stats := ⟨0, 0, 40, 0⟩ }
      else if u = 9 then { baseUser with role := Role.admin }
      else baseUser
    items := fun i =>
      if i = 10 then some ⟨2, 40, ItemStatus.active, true⟩
      else if i = 11 then some ⟨3, 40, ItemStatus.active, true⟩
      else none
    swaps := []
    nextSwapId := 0
    now := 0 }

/-- Concrete state for Scenario B: member 1 holds exactly 40 points (with
empty stats), member 2 owns the 40-point item 10 and has no points and no
history. -/
def dbB : DB :=
  { users := fun u => if u = 1 then { baseUser with points := 40 } else baseUser
    items := fun i => if i = 10 then some ⟨2, 40, ItemStatus.active, true⟩ else none
    swaps := []
    nextSwapId := 0
    now := 0 }

/-- Concrete state for the reservation claim: members 1 and 4 each hold 40
points; member 2 owns the active 40-point item 10. -/
def dbC : DB :=
  { users := fun u =>
      if u = 1 then { baseUser with points := 40, stats := ⟨0, 0, 40, 0⟩ }
      else if u = 4 then { baseUser with points := 40, stats := ⟨0, 0, 40, 0⟩ }
      else baseUser
    items := fun i => if i = 10 then some ⟨2, 40, ItemStatus.active, true⟩ else none
    swaps := []
    nextSwapId := 0
    now := 0 }

/-- Concrete state for the swap-type accept claim: member 2 owns the
30-point item 10 and member 1 owns the 25-point item 11. -/
def dbD : DB :=
  { users := fun _ => baseUser
    items := fun i =>
      if i = 10 then some ⟨2, 30, ItemStatus.active, true⟩
      else if i = 11 then some ⟨1, 25, ItemStatus.active, true⟩
      else none
    swaps := []
    nextSwapId := 0
    now := 0 }

/-- State after member 1 creates a redeem request for item 10, buys item
11 directly, and member 2 accepts the redeem request (all against dbA). -/
def c1mid : DB :=
  runOps dbA [Op.create 1 10 SwapType.redeem none none, Op.buy 1 11, Op.accept 2 0]

/-- c1mid followed by a dispute on swap 0 and its partial-refund
resolution. -/
def c1fin : DB :=
  runOps c1mid [Op.dispute 1 0 "other" "item does not match",
    Op.resolve 9 0 Resolution.partRefund "split the difference"]

/-- State after a single successful redeem create against dbB. -/
def c2s : DB := runOp dbB (Op.create 1 10 SwapType.redeem none none)

/-- dbC after a redeem create and the full 7-day expiry window elapsing. -/
def c3mid : DB :=
  runOps dbC [Op.create 1 10 SwapType.redeem none none, Op.tick expiryWindow]

/-- c3mid after a second redeem create against the same item. -/
def c3s : DB := runOp c3mid (Op.create 4 10 SwapType.redeem none none)

/-- dbA after create, accept and a dispute raised by the recipient on the
redeem swap 0. -/
def c4pre : DB :=
  runOps dbA [Op.create 1 10 SwapType.redeem none none, Op.accept 2 0,
    Op.dispute 2 0 "damaged" "sleeve torn on arrival"]

/-- The disputed swap document of c4pre. -/
def c4w : SwapRec := (findSwap c4pre 0).getD defaultSwap

/-- c4pre after the admin resolves the dispute with partial-refund. -/
def c4post : DB := runOp c4pre (Op.resolve 9 0 Resolution.partRefund "split the difference")

/-- State after create, accept and one markReceived by the initiator
(against dbB): the swap is still accepted with one received timestamp. -/
def c6s : DB :=
  runOps dbB [Op.create 1 10 SwapType.redeem none none, Op.accept 2 0, Op.receive 1 0]

/-- The swap document of c6s. -/
def c6w : SwapRec := (findSwap c6s 0).getD defaultSwap

/-- c6s after the initiator repeats markReceived. -/
def c6t : DB := runOp c6s (Op.receive 1 0)

/-- dbD after member 1 offers item 11 for item 10 (swap type). -/
def c7pre : DB := runOp dbD (Op.create 1 10 SwapType.swap (some 11) none)

/-- The pending swap document of c7pre. -/
def c7w : SwapRec := (findSwap c7pre 0).getD defaultSwap

/-- c7pre after the recipient accepts. -/
def c7post : DB := runOp c7pre (Op.accept 2 0)

/-- A fully completed redeem exchange against dbB (create, accept, both
parties mark received). -/
def c8s : DB :=
  runOps dbB [Op.create 1 10 SwapType.redeem none none, Op.accept 2 0,
    Op.receive 1 0, Op.receive 2 0]

/-- c8s after the initiator rates the completed swap. -/
def c8t : DB := runOp c8s (Op.rate 1 0 5 none)

/-- The completed swap document of c8s. -/
def c8w : SwapRec := (findSwap c8s 0).getD defaultSwap

/-- dbB after a redeem create: item 10 now has a pending exchange. -/
def c9s : DB := runOp dbB (Op.create 1 10 SwapType.redeem none none)

/-- c9s after the owner deletes item 10 while the exchange is pending. -/
def c9t : DB := runOp c9s (Op.destroyItem 2 10)

/-- dbA after create, accept and a dispute raised by the recipient
(same shape as c4pre, for the favor-recipient resolution). -/
def c10pre : DB :=
  runOps dbA [Op.create 1 10 SwapType.redeem none none, Op.accept 2 0,
    Op.dispute 2 0 "damaged" "sleeve torn on arrival"]

/-- The disputed swap document of c10pre. -/
def c10w : SwapRec := (findSwap c10pre 0).getD defaultSwap

/-- c10pre after the admin resolves the dispute in favor of the
recipient. -/
def c10post : DB := runOp c10pre (Op.resolve 9 0 Resolution.favorRecipient "keep as is")

/-- The full Scenario B run against dbB: create redeem, accept, both
parties mark received. -/
def scenB : DB :=
  runOps dbB [Op.create 1 10 SwapType.redeem none none, Op.accept 2 0,
    Op.receive 1 0, Op.receive 2 0]

/-- A state with only zeroed users, used to witness preservation
theorems: member 2 owns item 10, member 1 owns item 11. -/
def dbZ : DB :=
  { users := fun _ => baseUser
    items := fun i =>
      if i = 10 then some ⟨2, 30, ItemStatus.active, true⟩
      else if i = 11 then some ⟨1, 25, ItemStatus.active, true⟩
      else none
    swaps := []
    nextSwapId := 0
    now := 0 }

lemma finishCreate_ok {db : DB} {a r : Nat} {rItem : ItemRec} {ty : SwapType}
    {ii : Option Nat} {m : Option String} {db2 : DB}
    (h : finishCreate db a rItem r ty ii m = Except.ok db2) :
    db.swaps.any (activePendingB db.now r) = false ∧
    db2 = { db with
            swaps := db.swaps ++ [freshSwap db a rItem r ty ii m]
            nextSwapId := db.nextSwapId + 1 } := by
  unfold finishCreate at h
  split at h
  · exact absurd h (by simp)
  next hdup =>
    simp only [Except.ok.injEq] at h
    exact ⟨by simpa using hdup, h.symm⟩

lemma createSwap_ok {db : DB} {a r : Nat} {ty : SwapType} {ii : Option Nat}
    {m : Option String} {db2 : DB}
    (h : createSwap db a r ty ii m = Except.ok db2) :
    ∃ rItem, db.items r = some rItem ∧ rItem.status = ItemStatus.active ∧
      rItem.owner ≠ a ∧
      db.swaps.any (activePendingB db.now r) = false ∧
      db2 = { db with
              swaps := db.swaps ++ [freshSwap db a rItem r ty ii m]
              nextSwapId := db.nextSwapId + 1 } := by
  unfold createSwap at h
  repeat' split at h
  all_goals
    first
      | exact Except.noConfusion h
      | (obtain ⟨hdup, hdb⟩ := finishCreate_ok h
         refine ⟨_, ?_, ?_, ?_, hdup, hdb⟩ <;> simp_all [Decidable.not_not])

lemma acceptSwap_ok {db : DB} {a sid : Nat} {db2 : DB}
    (h : acceptSwap db a sid = Except.ok db2) :
    ∃ w, findSwap db sid = some w ∧ w.recipient = a ∧
      w.status = SwapStatus.pending ∧ db2 = acceptResult db a sid w := by
  unfold acceptSwap at h
  repeat' split at h
  all_goals
    first
      | exact Except.noConfusion h
      | (simp only [Except.ok.injEq] at h
         exact ⟨_, by assumption, by simp_all [Decidable.not_not],
           by simp_all [Decidable.not_not], h.symm⟩)

lemma rejectSwap_ok {db : DB} {a sid : Nat} {db2 : DB}
    (h : rejectSwap db a sid = Except.ok db2) :
    ∃ w, findSwap db sid = some w ∧ w.recipient = a ∧
      w.status = SwapStatus.pending ∧
      db2 = updSwap db sid (fun v =>
        { v with
          status := SwapStatus.rejected
          timeline := v.timeline ++ [⟨TAction.rejected, some a, db.now, "Swap rejected"⟩] }) := by
  unfold rejectSwap at h
  repeat' split at h
  all_goals
    first
      | exact Except.noConfusion h
      | (simp only [Except.ok.injEq] at h
         exact ⟨_, by assumption, by simp_all [Decidable.not_not],
           by simp_all [Decidable.not_not], h.symm⟩)

lemma markShipped_ok {db : DB} {a sid : Nat} {tr : Option String} {db2 : DB}
    (h : markShipped db a sid tr = Except.ok db2) :
    ∃ w, findSwap db sid = some w ∧ (w.initiator = a ∨ w.recipient = a) ∧
      w.status = SwapStatus.accepted ∧ db2 = shipResult db a sid w tr := by
  unfold markShipped at h
  repeat' split at h
  all_goals
    first
      | exact Except.noConfusion h
      | (simp only [Except.ok.injEq] at h
         exact ⟨_, by assumption, by tauto, by simp_all [Decidable.not_not], h.symm⟩)

lemma markReceived_ok {db : DB} {a sid : Nat} {db2 : DB}
    (h : markReceived db a sid = Except.ok db2) :
    ∃ w, findSwap db sid = some w ∧ (w.initiator = a ∨ w.recipient = a) ∧
      w.status = SwapStatus.accepted ∧ db2 = receiveResult db a sid w := by
  unfold markReceived at h
  repeat' split at h
  all_goals
    first
      | exact Except.noConfusion h
      | (simp only [Except.ok.injEq] at h
         exact ⟨_, by assumption, by tauto, by simp_all [Decidable.not_not], h.symm⟩)

lemma addRating_ok {db : DB} {a sid rt : Nat} {c : Option String} {db2 : DB}
    (h : addRating db a sid rt c = Except.ok db2) :
    ∃ w, findSwap db sid = some w ∧ w.status = SwapStatus.completed ∧
      (db2 = updSwap db sid (fun v => { v with initiatorRating := some ⟨rt, c, db.now⟩ }) ∨
       db2 = updSwap db sid (fun v => { v with recipientRating := some ⟨rt, c, db.now⟩ })) := by
  unfold addRating at h
  repeat' split at h
  all_goals
    first
      | exact Except.noConfusion h
      | (simp only [Except.ok.injEq] at h
         exact ⟨_, by assumption, by simp_all [Decidable.not_not], Or.inl h.symm⟩)
      | (simp only [Except.ok.injEq] at h
         exact ⟨_, by assumption, by simp_all [Decidable.not_not], Or.inr h.symm⟩)

lemma raiseDispute_ok {db : DB} {a sid : Nat} {reason description : String} {db2 : DB}
    (h : raiseDispute db a sid reason description = Except.ok db2) :
    ∃ w, findSwap db sid = some w ∧
      db2 = updSwap db sid (fun v =>
        { v with
          dispute := ⟨some a, some reason, some description, some DStatus.opn,
                      none, none, none⟩
          timeline := v.timeline ++
            [⟨TAction.disputed, some a, db.now, "Dispute raised: " ++ reason⟩] }) := by
  unfold raiseDispute at h
  repeat' split at h
  all_goals
    first
      | exact Except.noConfusion h
      | (simp only [Except.ok.injEq] at h
         exact ⟨_, by assumption, h.symm⟩)

lemma resolveDispute_ok {db : DB} {a sid : Nat} {res : Resolution} {notes : String}
    {db2 : DB} (h : resolveDispute db a sid res notes = Except.ok db2) :
    ∃ w, findSwap db sid = some w ∧ w.dispute.status = some DStatus.opn ∧
      db2 = resolveResult db a sid res notes w := by
  unfold resolveDispute at h
  repeat' split at h
  all_goals
    first
      | exact Except.noConfusion h
      | (simp only [Except.ok.injEq] at h
         exact ⟨_, by assumption, by simp_all [Decidable.not_not], h.symm⟩)

lemma buyItem_ok {db : DB} {a iid : Nat} {db2 : DB}
    (h : buyItem db a iid = Except.ok db2) :
    ∃ item, db.items iid = some item ∧ item.status = ItemStatus.active ∧
      item.owner ≠ a ∧ db2 = buyResult db a iid item := by
  unfold buyItem at h
  repeat' split at h
  all_goals
    first
      | exact Except.noConfusion h
      | (simp only [Except.ok.injEq] at h
         exact ⟨_, by assumption, by simp_all [Decidable.not_not],
           by simp_all [Decidable.not_not], h.symm⟩)

lemma deleteItem_ok {db : DB} {a iid : Nat} {db2 : DB}
    (h : deleteItem db a iid = Except.ok db2) :
    ∃ item, db.items iid = some item ∧ item.owner = a ∧
      db2 = deleteResult db a iid := by
  unfold deleteItem at h
  repeat' split at h
  all_goals
    first
      | exact Except.noConfusion h
      | (simp only [Except.ok.injEq] at h
         exact ⟨_, by assumption, by simp_all [Decidable.not_not], h.symm⟩)

lemma activePendingB_iff {now i : Nat} {w : SwapRec} :
    activePendingB now i w = true ↔
      (w.recipientItem = i ∧ w.status = SwapStatus.pending ∧ now < w.expiresAt) := by
  simp [activePendingB]

lemma countP_map_le {l : List SwapRec} {sid : Nat} {f : SwapRec → SwapRec}
    {p : SwapRec → Bool} (hf : ∀ v, p (f v) = true → p v = true) :
    (l.map (fun w => if w.id = sid then f w else w)).countP p ≤ l.countP p := by
  rw [List.countP_map]
  apply List.countP_mono_left
  intro w _ hw
  simp only [Function.comp] at hw
  by_cases hid : w.id = sid
  · rw [if_pos hid] at hw; exact hf w hw
  · rwa [if_neg hid] at hw

lemma find?_map_patch (l : List SwapRec) (sid : Nat) (f : SwapRec → SwapRec)
    (hf : ∀ v, (f v).id = v.id) :
    (l.map (fun w => if w.id = sid then f w else w)).find? (fun w => w.id == sid) =
      (l.find? (fun w => w.id == sid)).map (fun w => if w.id = sid then f w else w) := by
  induction l with
  | nil => rfl
  | cons x tl ih =>
    by_cases hid : x.id = sid
    · simp [List.find?_cons, hid, hf]
    · simp [List.find?_cons, hid, ih]

lemma findSwap_updSwap {db : DB} {sid : Nat} {f : SwapRec → SwapRec} {w : SwapRec}
    (hf : ∀ v, (f v).id = v.id) (hw : findSwap db sid = some w) :
    findSwap (updSwap db sid f) sid = some (f w) := by
  have hid : w.id = sid := by simpa using List.find?_some hw
  unfold findSwap updSwap at *
  rw [show ({ db with
      swaps := db.swaps.map (fun v => if v.id = sid then f v else v) } : DB).swaps =
      db.swaps.map (fun v => if v.id = sid then f v else v) from rfl]
  rw [find?_map_patch db.swaps sid f hf, hw]
  simp [hid]

lemma ledgerStep_refl (u : UserRec) : LedgerStep u u :=
  ⟨0, 0, by simp, by simp, by simp⟩

lemma ledgerStep_trans {u v x : UserRec} (h1 : LedgerStep u v) (h2 : LedgerStep v x) :
    LedgerStep u x := by
  obtain ⟨e1, s1, hp1, he1, hs1⟩ := h1
  obtain ⟨e2, s2, hp2, he2, hs2⟩ := h2
  refine ⟨e1 + e2, s1 + s2, ?_, ?_, ?_⟩
  · rw [hp2, hp1]; push_cast; ring
  · rw [he2, he1]; push_cast; ring
  · rw [hs2, hs1]; push_cast; ring

lemma updUser_ledger {db : DB} {uid : Nat} {f : UserRec → UserRec}
    (hf : ∀ u, LedgerStep u (f u)) :
    ∀ x, LedgerStep (db.users x) ((updUser db uid f).users x) := by
  intro x
  unfold updUser
  by_cases hx : x = uid
  · simpa [hx] using hf (db.users x)
  · simpa [hx] using ledgerStep_refl (db.users x)

lemma incEarn_ledger (db : DB) (uid : Nat) (amt : Nat) :
    ∀ x, LedgerStep (db.users x) ((incEarn db uid amt).users x) := by
  apply updUser_ledger
  intro u
  exact ⟨amt, 0, by simp, by simp, by simp⟩

lemma incSpend_ledger (db : DB) (uid : Nat) (amt : Nat) :
    ∀ x, LedgerStep (db.users x) ((incSpend db uid amt).users x) := by
  apply updUser_ledger
  intro u
  refine ⟨0, amt, by push_cast; ring, by simp, by simp⟩

lemma checkMilestonesU_ledger (u : UserRec) : LedgerStep u (checkMilestonesU u) := by
  by_cases hb : 0 < (milestoneScan u).2
  · refine ⟨(milestoneScan u).2, 0, ?_, ?_, ?_⟩ <;> simp [checkMilestonesU, hb]
  · have : checkMilestonesU u = u := by simp [checkMilestonesU, hb]
    rw [this]
    exact ledgerStep_refl u

lemma checkMilestones_ledger (db : DB) (uid : Nat) :
    ∀ x, LedgerStep (db.users x) ((checkMilestones db uid).users x) :=
  updUser_ledger (fun u => checkMilestonesU_ledger u)

lemma bonus_ledger_fun (b : Nat) : ∀ u : UserRec, LedgerStep u
    { u with
      points := u.points + b
      stats := { u.stats with
                 swapsCompleted := u.stats.swapsCompleted + 1
                 totalPointsEarned := u.stats.totalPointsEarned + b } } :=
  fun _ => ⟨b, 0, by simp, by simp, by simp⟩

lemma completedBonus_ledger (db : DB) (uid : Nat) :
    ∀ x, LedgerStep (db.users x) ((completedBonus db uid).users x) := by
  unfold completedBonus
  exact updUser_ledger (bonus_ledger_fun _)

lemma acceptResult_spec (db : DB) (a sid : Nat) (w : SwapRec) :
    (acceptResult db a sid w).now = db.now ∧
    (acceptResult db a sid w).swaps = db.swaps.map (fun v =>
      if v.id = sid then
        { v with
          status := SwapStatus.accepted
          timeline := v.timeline ++
            [⟨TAction.accepted, some a, db.now, "Swap accepted"⟩] }
      else v) := by
  unfold acceptResult
  cases hty : w.type <;> cases hii : w.initiatorItem <;>
    simp [hty, hii, updSwap, setItemStatus, updItem, incEarn, incSpend, updUser]

lemma receiveResult_spec (db : DB) (a sid : Nat) (w : SwapRec) :
    (receiveResult db a sid w).now = db.now ∧
    (receiveResult db a sid w).swaps = db.swaps.map (fun v =>
      if v.id = sid then recvUpd a db.now v else v) := by
  unfold receiveResult
  split <;>
    simp [updSwap, completedBonus, checkMilestones, updUser]

lemma shipResult_spec (db : DB) (a sid : Nat) (w : SwapRec) (tr : Option String) :
    ∃ f : SwapRec → SwapRec,
      (∀ v, (f v).id = v.id ∧ (f v).recipientItem = v.recipientItem ∧
        (f v).expiresAt = v.expiresAt ∧ (f v).status = v.status ∧
        ∃ e, (f v).timeline = v.timeline ++ [e]) ∧
      (shipResult db a sid w tr).now = db.now ∧
      (shipResult db a sid w tr).swaps =
        db.swaps.map (fun v => if v.id = sid then f v else v) := by
  unfold shipResult
  split
  · refine ⟨fun v =>
      { v with
        shipping := { v.shipping with
                      initiatorTracking := tr
                      initiatorShippedAt := some db.now }
        timeline := v.timeline ++
          [⟨TAction.shipped, some a, db.now, "Initiator shipped item"⟩] },
      fun v => ⟨rfl, rfl, rfl, rfl, ⟨_, rfl⟩⟩, rfl, ?_⟩
    simp [updSwap]
  · refine ⟨fun v =>
      { v with
        shipping := { v.shipping with
                      recipientTracking := tr
                      recipientShippedAt := some db.now }
        timeline := v.timeline ++
          [⟨TAction.shipped, some a, db.now, "Recipient shipped item"⟩] },
      fun v => ⟨rfl, rfl, rfl, rfl, ⟨_, rfl⟩⟩, rfl, ?_⟩
    simp [updSwap]

lemma resolveResult_spec (db : DB) (a sid : Nat) (res : Resolution) (notes : String)
    (w : SwapRec) :
    (resolveResult db a sid res notes w).now = db.now ∧
    ∃ st, st ≠ SwapStatus.pending ∧
      (resolveResult db a sid res notes w).swaps = db.swaps.map (fun v =>
        if v.id = sid then
          { v with
            status := st
            dispute := { v.dispute with
                         status := some DStatus.resolved
                         adminNotes := some notes
                         resolvedBy := some a
                         resolvedAt := some db.now } }
        else v) := by
  unfold resolveResult
  cases res with
  | favorInitiator =>
    dsimp only
    cases hii : w.initiatorItem <;>
      exact ⟨by simp [hii, setItemStatus, updItem, updSwap],
        SwapStatus.cancelled, by simp,
        by simp [hii, updSwap, setItemStatus, updItem, updUser]⟩
  | cancel =>
    dsimp only
    cases hii : w.initiatorItem <;>
      exact ⟨by simp [hii, setItemStatus, updItem, updSwap],
        SwapStatus.cancelled, by simp,
        by simp [hii, updSwap, setItemStatus, updItem, updUser]⟩
  | favorRecipient =>
    exact ⟨rfl, SwapStatus.completed, by simp, by simp [updSwap]⟩
  | partRefund =>
    dsimp only
    refine ⟨?_, SwapStatus.completed, by simp, ?_⟩ <;>
      split <;> simp [updSwap, updUser]

lemma buyResult_spec (db : DB) (a iid : Nat) (item : ItemRec) :
    (buyResult db a iid item).now = db.now ∧
    (buyResult db a iid item).swaps = db.swaps ++ [purchaseSwap db a iid item] := by
  unfold buyResult
  dsimp only
  split <;> simp [incSpend, incEarn, updUser, setItemStatus, updItem]

lemma deleteResult_spec (db : DB) (a iid : Nat) :
    (deleteResult db a iid).now = db.now ∧
    (deleteResult db a iid).swaps = db.swaps := by
  exact ⟨rfl, rfl⟩

lemma acceptResult_ledger (db : DB) (a sid : Nat) (w : SwapRec) :
    ∀ x, LedgerStep (db.users x) ((acceptResult db a sid w).users x) := by
  intro x
  unfold acceptResult
  cases hty : w.type <;> cases hii : w.initiatorItem <;>
    simp only [hty, hii] <;>
    first
      | exact ledgerStep_trans (incSpend_ledger _ _ _ x) (incEarn_ledger _ _ _ x)
      | exact ledgerStep_trans (incEarn_ledger _ _ _ x) (incEarn_ledger _ _ _ x)


lemma receiveResult_eq (db : DB) (a sid : Nat) (w : SwapRec) :
    receiveResult db a sid w =
      if (recvUpd a db.now w).status = SwapStatus.completed then
        checkMilestones (checkMilestones (completedBonus (completedBonus
          (updSwap db sid (recvUpd a db.now)) w.initiator) w.recipient)
          w.initiator) w.recipient
      else updSwap db sid (recvUpd a db.now) := rfl



lemma receiveResult_ledger (db : DB) (a sid : Nat) (w : SwapRec) :
    ∀ x, LedgerStep (db.users x) ((receiveResult db a sid w).users x) := by
  intro x
  rw [receiveResult_eq]
  by_cases hc : (recvUpd a db.now w).status = SwapStatus.completed
  · rw [if_pos hc]
    exact ledgerStep_trans (ledgerStep_trans (ledgerStep_trans
      (completedBonus_ledger (updSwap db sid (recvUpd a db.now)) w.initiator x)
      (completedBonus_ledger
        (completedBonus (updSwap db sid (recvUpd a db.now)) w.initiator)
        w.recipient x))
      (checkMilestones_ledger
        (completedBonus (completedBonus (updSwap db sid (recvUpd a db.now))
          w.initiator) w.recipient) w.initiator x))
      (checkMilestones_ledger
        (checkMilestones (completedBonus (completedBonus
          (updSwap db sid (recvUpd a db.now)) w.initiator) w.recipient)
          w.initiator) w.recipient x)
  · rw [if_neg hc]
    exact ledgerStep_refl _

lemma buyResult_ledger (db : DB) (a iid : Nat) (item : ItemRec) :
    ∀ x, LedgerStep (db.users x) ((buyResult db a iid item).users x) := by
  intro x
  unfold buyResult
  dsimp only
  split
  · exact ledgerStep_trans (ledgerStep_trans (incSpend_ledger db a item.points x)
      (incEarn_ledger (incSpend db a item.points) item.owner item.points x))
      (incEarn_ledger _ a 25 x)
  · exact ledgerStep_trans (incSpend_ledger db a item.points x)
      (incEarn_ledger (incSpend db a item.points) item.owner item.points x)

lemma resolveResult_ledger (db : DB) (a sid : Nat) (res : Resolution) (notes : String)
    (w : SwapRec) (hres : res ≠ Resolution.partRefund) :
    ∀ x, LedgerStep (db.users x) ((resolveResult db a sid res notes w).users x) := by
  intro x
  unfold resolveResult
  cases res with
  | favorInitiator =>
    dsimp only
    cases hii : w.initiatorItem <;> simp only [hii] <;> exact ledgerStep_refl _
  | cancel =>
    dsimp only
    cases hii : w.initiatorItem <;> simp only [hii] <;> exact ledgerStep_refl _
  | favorRecipient => exact ledgerStep_refl _
  | partRefund => exact absurd rfl hres

lemma deleteResult_ledger (db : DB) (a iid : Nat) :
    ∀ x, LedgerStep (db.users x) ((deleteResult db a iid).users x) := by
  intro x
  unfold deleteResult
  dsimp only
  exact updUser_ledger (fun u => ⟨0, 0, by simp, by simp, by simp⟩) x

/-- C1 (amended): with every member's balance equal to lifetime-earned
minus lifetime-spent beforehand, every engine operation except the
partial-refund dispute resolution preserves that equality for every
member (the partial-refund credit changes points without touching either
lifetime counter, and non-negativity is separately violated by the
redeem-accept debit, which does not re-check the balance at accept
time). -/
theorem C1_ledger_equality (db : DB) (o : Op) (db2 : DB)
    (h : applyOp db o = Except.ok db2)
    (hno : ∀ a sid notes, o ≠ Op.resolve a sid Resolution.partRefund notes)
    (hinv : ∀ uid, (db.users uid).points =
      (db.users uid).stats.totalPointsEarned -
      (db.users uid).stats.totalPointsSpent) :
    ∀ uid, (db2.users uid).points =
      (db2.users uid).stats.totalPointsEarned -
      (db2.users uid).stats.totalPointsSpent := by
  have key : ∀ x, LedgerStep (db.users x) (db2.users x) := by
    cases o with
    | create a r ty ii m =>
      obtain ⟨rItem, _, _, _, _, hdb⟩ := createSwap_ok h
      subst hdb
      exact fun x => ledgerStep_refl _
    | accept a sid =>
      obtain ⟨w, _, _, _, hdb⟩ := acceptSwap_ok h
      subst hdb
      exact acceptResult_ledger db a sid w
    | reject a sid =>
      obtain ⟨w, _, _, _, hdb⟩ := rejectSwap_ok h
      subst hdb
      exact fun x => ledgerStep_refl _
    | ship a sid tr =>
      obtain ⟨w, _, _, _, hdb⟩ := markShipped_ok h
      subst hdb
      intro x
      unfold shipResult
      split <;> exact ledgerStep_refl _
    | receive a sid =>
      obtain ⟨w, _, _, _, hdb⟩ := markReceived_ok h
      subst hdb
      exact receiveResult_ledger db a sid w
    | rate a sid rt c =>
      obtain ⟨w, _, _, hd⟩ := addRating_ok h
      cases hd with
      | inl hdb => subst hdb; exact fun x => ledgerStep_refl _
      | inr hdb => subst hdb; exact fun x => ledgerStep_refl _
    | dispute a sid r d =>
      obtain ⟨w, _, hdb⟩ := raiseDispute_ok h
      subst hdb
      exact fun x => ledgerStep_refl _
    | resolve a sid res notes =>
      obtain ⟨w, _, _, hdb⟩ := resolveDispute_ok h
      subst hdb
      refine resolveResult_ledger db a sid res notes w ?_
      intro hres
      exact hno a sid notes (by rw [hres])
    | buy a iid =>
      obtain ⟨item, _, _, _, hdb⟩ := buyItem_ok h
      subst hdb
      exact buyResult_ledger db a iid item
    | destroyItem a iid =>
      obtain ⟨item, _, _, hdb⟩ := deleteItem_ok h
      subst hdb
      exact deleteResult_ledger db a iid
    | tick d =>
      simp only [applyOp, Except.ok.injEq] at h
      subst h
      exact fun x => ledgerStep_refl _
  intro uid
  obtain ⟨e, s, hp, he, hs⟩ := key uid
  rw [hp, he, hs, hinv uid]
  ring

/-- Witness for C1_ledger_equality: a successful swap-type create against
the all-zero state dbZ preserves the equality for member 1. -/
theorem C1_ledger_equality_witness :
    ((runOp dbZ (Op.create 1 10 SwapType.swap (some 11) none)).users 1).points =
      ((runOp dbZ (Op.create 1 10 SwapType.swap (some 11) none)).users
        1).stats.totalPointsEarned -
      ((runOp dbZ (Op.create 1 10 SwapType.swap (some 11) none)).users
        1).stats.totalPointsSpent :=
  C1_ledger_equality dbZ (Op.create 1 10 SwapType.swap (some 11) none) _ rfl
    (fun _ _ _ hcontra => Op.noConfusion hcontra) (fun _ => rfl) 1

/-- C1 counterexample: starting from dbA (where every member satisfies
balance = earned − spent and balance is non-negative), the engine run
create-redeem, direct-buy, accept leaves member 1 with a negative balance
(the redeem-accept debit does not re-check the balance), and the follow-up
dispute plus partial-refund resolution leaves member 1 with a balance that
differs from earned − spent (the refund credit touches neither counter).
This refutes both halves of the claimed invariant. -/
theorem C1_counterexample :
    (c1mid.users 1).points < 0 ∧
    ¬ ((c1fin.users 1).points =
        (c1fin.users 1).stats.totalPointsEarned -
        (c1fin.users 1).stats.totalPointsSpent) := by
  decide

/-- C2 (amended): a successful createExchange appends a swap record in
status pending with a single created timeline entry, expiry at creation
time plus 7 days, and points equal to the item valuation for redeem and 0
for swap; the recipient item document itself is unchanged (there is no
reserved availability state in the code; the reservation exists only as
the pending-swap guard). -/
theorem C2_create_success (db : DB) (a r : Nat) (ty : SwapType) (ii : Option Nat)
    (m : Option String) (db2 : DB)
    (h : createSwap db a r ty ii m = Except.ok db2) :
    ∃ rItem, db.items r = some rItem ∧
      db2.swaps = db.swaps ++ [freshSwap db a rItem r ty ii m] ∧
      (freshSwap db a rItem r ty ii m).status = SwapStatus.pending ∧
      (freshSwap db a rItem r ty ii m).timeline =
        [⟨TAction.created, some a, db.now, "Swap request created"⟩] ∧
      (freshSwap db a rItem r ty ii m).expiresAt = db.now + expiryWindow ∧
      (freshSwap db a rItem r ty ii m).points =
        (if ty = SwapType.redeem then rItem.points else 0) ∧
      db2.items = db.items ∧
      db2.users = db.users := by
  obtain ⟨rItem, hri, _, _, _, hdb⟩ := createSwap_ok h
  subst hdb
  exact ⟨rItem, hri, rfl, rfl, rfl, rfl, by cases ty <;> rfl, rfl, rfl⟩

/-- Witness for C2_create_success: the concrete redeem create of c2s. -/
theorem C2_create_success_witness :
    ∃ rItem, dbB.items 10 = some rItem ∧
      c2s.swaps = dbB.swaps ++ [freshSwap dbB 1 rItem 10 SwapType.redeem none none] ∧
      (freshSwap dbB 1 rItem 10 SwapType.redeem none none).status = SwapStatus.pending ∧
      (freshSwap dbB 1 rItem 10 SwapType.redeem none none).timeline =
        [⟨TAction.created, some 1, dbB.now, "Swap request created"⟩] ∧
      (freshSwap dbB 1 rItem 10 SwapType.redeem none none).expiresAt =
        dbB.now + expiryWindow ∧
      (freshSwap dbB 1 rItem 10 SwapType.redeem none none).points =
        (if SwapType.redeem = SwapType.redeem then rItem.points else 0) ∧
      c2s.items = dbB.items ∧
      c2s.users = dbB.users :=
  C2_create_success dbB 1 10 SwapType.redeem none none c2s rfl

/-- C2 counterexample: the create succeeds, yet the recipient item's
stored availability state is exactly what it was before (still active,
not any reserved state — no such state exists in the item schema). -/
theorem C2_counterexample :
    applyOp dbB (Op.create 1 10 SwapType.redeem none none) = Except.ok c2s ∧
    (c2s.items 10).map ItemRec.status = some ItemStatus.active ∧
    c2s.items 10 = dbB.items 10 :=
  ⟨rfl, by decide, by decide⟩

/-- C4 (amended): resolving an open dispute on a redeem exchange with the
partial-refund outcome credits the initiator with floor(points/2), leaves
the initiator's lifetime counters and every other member's document
(including the recipient's balance) unchanged, leaves every item
unchanged, and sets the exchange to completed with the dispute resolved.
No points are debited from the recipient. -/
theorem C4_half_refund (db : DB) (a sid : Nat) (notes : String) (w : SwapRec)
    (db2 : DB) (hw : findSwap db sid = some w) (hty : w.type = SwapType.redeem)
    (h : resolveDispute db a sid Resolution.partRefund notes = Except.ok db2) :
    (db2.users w.initiator).points =
      (db.users w.initiator).points + ((w.points / 2 : Nat) : Int) ∧
    (db2.users w.initiator).stats = (db.users w.initiator).stats ∧
    (∀ x, x ≠ w.initiator → db2.users x = db.users x) ∧
    (∀ i, db2.items i = db.items i) ∧
    (findSwap db2 sid).map SwapRec.status = some SwapStatus.completed ∧
    (findSwap db2 sid).map (fun v => v.dispute.status) =
      some (some DStatus.resolved) := by
  obtain ⟨w2, hw2, hopen, hdb⟩ := resolveDispute_ok h
  rw [hw] at hw2
  injection hw2 with hww
  subst hww
  have hres : resolveResult db a sid Resolution.partRefund notes w =
      updSwap (updUser db w.initiator (fun u =>
        { u with points := u.points + ((w.points / 2 : Nat) : Int) })) sid
        (fun v =>
          { v with
            status := SwapStatus.completed
            dispute := { v.dispute with
                         status := some DStatus.resolved
                         adminNotes := some notes
                         resolvedBy := some a
                         resolvedAt := some db.now } }) := by
    unfold resolveResult
    dsimp only
    rw [hty]
    simp
  rw [hres] at hdb
  subst hdb
  have hw1 : findSwap (updUser db w.initiator (fun u =>
      { u with points := u.points + ((w.points / 2 : Nat) : Int) })) sid = some w := hw
  have hfind := findSwap_updSwap (f := fun v =>
      { v with
        status := SwapStatus.completed
        dispute := { v.dispute with
                     status := some DStatus.resolved
                     adminNotes := some notes
                     resolvedBy := some a
                     resolvedAt := some db.now } }) (fun v => rfl) hw1
  refine ⟨by simp [updSwap, updUser], by simp [updSwap, updUser], ?_, ?_, ?_, ?_⟩
  · intro x hx
    simp [updSwap, updUser, hx]
  · intro i
    simp [updSwap, updUser]
  · rw [hfind]; rfl
  · rw [hfind]; rfl

/-- Witness for C4_half_refund: the concrete disputed redeem swap of
c4pre resolved with partial-refund into c4post. -/
theorem C4_half_refund_witness :
    (c4post.users c4w.initiator).points =
      (c4pre.users c4w.initiator).points + ((c4w.points / 2 : Nat) : Int) ∧
    (c4post.users c4w.initiator).stats = (c4pre.users c4w.initiator).stats ∧
    (∀ x, x ≠ c4w.initiator → c4post.users x = c4pre.users x) ∧
    (∀ i, c4post.items i = c4pre.items i) ∧
    (findSwap c4post 0).map SwapRec.status = some SwapStatus.completed ∧
    (findSwap c4post 0).map (fun v => v.dispute.status) =
      some (some DStatus.resolved) :=
  C4_half_refund c4pre 9 0 "split the difference" c4w c4post rfl (by decide) rfl

/-- C4 counterexample: in the concrete partial-refund resolution of a
40-point redeem exchange, the initiator is credited 20 points but the
recipient's balance stays at 40 — it does not decrease by 20 as the claim
requires. -/
theorem C4_counterexample :
    applyOp c4pre (Op.resolve 9 0 Resolution.partRefund "split the difference") =
      Except.ok c4post ∧
    (c4pre.users 2).points = 40 ∧
    (c4post.users 2).points = 40 ∧
    (c4post.users 1).points = (c4pre.users 1).points + 20 :=
  ⟨rfl, by decide, by decide, by decide⟩

/-- C10 (confirmed): resolving an open dispute on an accepted exchange in
favor of the recipient flips the exchange to completed and the dispute to
resolved, and changes nothing else: every user document (balances,
lifetime counters, swapsCompleted) and every item document is exactly as
before. -/
theorem C10_favor_recipient_frame (db : DB) (a sid : Nat) (notes : String)
    (w : SwapRec) (db2 : DB) (hw : findSwap db sid = some w)
    (hst : w.status = SwapStatus.accepted)
    (h : resolveDispute db a sid Resolution.favorRecipient notes = Except.ok db2) :
    db2.users = db.users ∧
    db2.items = db.items ∧
    (findSwap db2 sid).map SwapRec.status = some SwapStatus.completed ∧
    (findSwap db2 sid).map (fun v => v.dispute.status) =
      some (some DStatus.resolved) ∧
    (findSwap db2 sid).map (fun v => v.timeline) = some w.timeline := by
  obtain ⟨w2, hw2, hopen, hdb⟩ := resolveDispute_ok h
  rw [hw] at hw2
  injection hw2 with hww
  subst hww
  subst hdb
  have hres : resolveResult db a sid Resolution.favorRecipient notes w =
      updSwap db sid (fun v =>
        { v with
          status := SwapStatus.completed
          dispute := { v.dispute with
                       status := some DStatus.resolved
                       adminNotes := some notes
                       resolvedBy := some a
                       resolvedAt := some db.now } }) := rfl
  have hfind := findSwap_updSwap (f := fun v =>
      { v with
        status := SwapStatus.completed
        dispute := { v.dispute with
                     status := some DStatus.resolved
                     adminNotes := some notes
                     resolvedBy := some a
                     resolvedAt := some db.now } }) (fun v => rfl) hw
  exact ⟨rfl, rfl, by rw [hres, hfind]; rfl, by rw [hres, hfind]; rfl,
    by rw [hres, hfind]; rfl⟩

/-- Witness for C10_favor_recipient_frame: the concrete favor-recipient
resolution of the disputed accepted redeem swap of c10pre. -/
theorem C10_favor_recipient_frame_witness :
    c10post.users = c10pre.users ∧
    c10post.items = c10pre.items ∧
    (findSwap c10post 0).map SwapRec.status = some SwapStatus.completed ∧
    (findSwap c10post 0).map (fun v => v.dispute.status) =
      some (some DStatus.resolved) ∧
    (findSwap c10post 0).map (fun v => v.timeline) = some c10w.timeline :=
  C10_favor_recipient_frame c10pre 9 0 "keep as is" c10w c10post rfl (by decide) rfl

lemma recvUpd_id (a n : Nat) (v : SwapRec) : (recvUpd a n v).id = v.id := by
  unfold recvUpd
  dsimp only
  split <;> split <;> rfl

lemma items_points_setItemStatus (d : DB) (j : Nat) (st : ItemStatus) (x : Nat) :
    ((setItemStatus d j st).items x).map ItemRec.points =
      (d.items x).map ItemRec.points := by
  unfold setItemStatus updItem
  by_cases hx : x = j
  · dsimp only
    rw [if_pos hx]
    cases d.items x <;> simp
  · dsimp only
    rw [if_neg hx]

/-- C5 counterexample: running Scenario B exactly as the claim describes
it leaves member 2 at 210 points, not 110, so the claimed pair of final
balances is false. -/
theorem C5_counterexample :
    ¬ ((scenB.users 1).points = 70 ∧ (scenB.users 2).points = 110) := by
  decide

/-- C5 (amended): in Scenario B member 1 ends at 70 points, but member 2
ends at 210 points: 40 from the transfer, 20 completion bonus, 50
first-completion bonus, and then 100 more because the milestone
recalculation sees lifetime-earned 110 at or above the 100 threshold and
pays the totalPointsEarned milestone. -/
theorem C5_scenarioB :
    (scenB.users 1).points = 70 ∧
    (scenB.users 2).points = 210 ∧
    (scenB.users 1).stats.totalPointsEarned = 70 ∧
    (scenB.users 2).stats.totalPointsEarned = 210 ∧
    (scenB.users 1).stats.totalPointsSpent = 40 ∧
    (scenB.users 2).achievements = ["totalPointsEarned_100"] ∧
    (findSwap scenB 0).map SwapRec.status = some SwapStatus.completed := by
  decide

/-- C9 (code bug): with a pending exchange referencing item 10, the
owner's delete request succeeds anyway (the handler has only a TODO where
the active-swap check should be), removing the item while the exchange
stays pending. -/
theorem C9_delete_unchecked :
    applyOp c9s (Op.destroyItem 2 10) = Except.ok c9t ∧
    pendingCount c9s 10 = 1 ∧
    c9t.items 10 = none ∧
    (findSwap c9t 0).map SwapRec.status = some SwapStatus.pending :=
  ⟨rfl, by decide, by decide, by decide⟩

/-- C6 (amended): markReceived is not idempotent per party: while the
exchange is still accepted (the other side not yet received), a repeated
call by the same party succeeds again and appends one more received
timeline entry, leaving the status accepted; only once the exchange has
reached completed does a further call fail with InvalidStateTransition. -/
theorem C6_mark_received_repeat (db : DB) (a sid : Nat) (w : SwapRec)
    (hw : findSwap db sid = some w) (hmem : w.initiator = a ∨ w.recipient = a) :
    (w.status = SwapStatus.completed →
      markReceived db a sid = Except.error Err.invalidStateTransition) ∧
    (w.status = SwapStatus.accepted →
      ((w.initiator = a ∧ w.shipping.recipientReceivedAt = none) ∨
       (w.initiator ≠ a ∧ w.recipient = a ∧ w.shipping.initiatorReceivedAt = none)) →
      markReceived db a sid = Except.ok (receiveResult db a sid w) ∧
      (findSwap (receiveResult db a sid w) sid).map (fun v => v.timeline.length) =
        some (w.timeline.length + 1) ∧
      (findSwap (receiveResult db a sid w) sid).map SwapRec.status =
        some SwapStatus.accepted) := by
  constructor
  · intro hc
    unfold markReceived
    rw [hw]
    dsimp only
    rw [if_neg (by tauto), if_pos (by simp [hc])]
  · intro hacc hcase
    have hrecv : recvUpd a db.now w =
        (if w.initiator = a then
          { w with
            shipping := { w.shipping with initiatorReceivedAt := some db.now }
            timeline := w.timeline ++
              [⟨TAction.received, some a, db.now, "Initiator received item"⟩] }
        else
          { w with
            shipping := { w.shipping with recipientReceivedAt := some db.now }
            timeline := w.timeline ++
              [⟨TAction.received, some a, db.now, "Recipient received item"⟩] }) := by
      unfold recvUpd
      dsimp only
      rcases hcase with ⟨hia, hrn⟩ | ⟨hia, hra, hin⟩
      · rw [if_pos hia, if_neg (by simp [hrn])]
      · rw [if_neg hia, if_neg (by simp [hin])]
    have hst2 : (recvUpd a db.now w).status = SwapStatus.accepted := by
      rw [hrecv]
      rcases hcase with ⟨hia, _⟩ | ⟨hia, _, _⟩
      · rw [if_pos hia]; exact hacc
      · rw [if_neg hia]; exact hacc
    have hlen : (recvUpd a db.now w).timeline.length = w.timeline.length + 1 := by
      rw [hrecv]
      rcases hcase with ⟨hia, _⟩ | ⟨hia, _, _⟩
      · rw [if_pos hia]; simp
      · rw [if_neg hia]; simp
    have hrr : receiveResult db a sid w = updSwap db sid (recvUpd a db.now) := by
      rw [receiveResult_eq, if_neg (by simp [hst2])]
    refine ⟨?_, ?_, ?_⟩
    · unfold markReceived
      rw [hw]
      dsimp only
      rw [if_neg (by tauto), if_neg (by simp [hacc])]
    · rw [hrr, findSwap_updSwap (fun v => recvUpd_id a db.now v) hw]
      simp [hlen]
    · rw [hrr, findSwap_updSwap (fun v => recvUpd_id a db.now v) hw]
      simp [hst2]

/-- Witness for C6_mark_received_repeat: the swap of c6s, already marked
received once by the initiator, with the repeated call of c6t. -/
theorem C6_mark_received_repeat_witness :
    (c6w.status = SwapStatus.completed →
      markReceived c6s 1 0 = Except.error Err.invalidStateTransition) ∧
    (c6w.status = SwapStatus.accepted →
      ((c6w.initiator = 1 ∧ c6w.shipping.recipientReceivedAt = none) ∨
       (c6w.initiator ≠ 1 ∧ c6w.recipient = 1 ∧
        c6w.shipping.initiatorReceivedAt = none)) →
      markReceived c6s 1 0 = Except.ok (receiveResult c6s 1 0 c6w) ∧
      (findSwap (receiveResult c6s 1 0 c6w) 0).map (fun v => v.timeline.length) =
        some (c6w.timeline.length + 1) ∧
      (findSwap (receiveResult c6s 1 0 c6w) 0).map SwapRec.status =
        some SwapStatus.accepted) :=
  C6_mark_received_repeat c6s 1 0 c6w rfl (by decide)

/-- C6 counterexample: the initiator's second markReceived call on the
still-accepted exchange succeeds and grows the timeline from 3 to 4
entries (a duplicate received entry), so the second call is observably
different from a no-op and does not fail. -/
theorem C6_counterexample :
    applyOp c6s (Op.receive 1 0) = Except.ok c6t ∧
    (findSwap c6s 0).map (fun v => v.timeline.length) = some 3 ∧
    (findSwap c6t 0).map (fun v => v.timeline.length) = some 4 ∧
    (findSwap c6t 0).map SwapRec.status = some SwapStatus.accepted :=
  ⟨rfl, by decide, by decide, by decide⟩

/-- C7 (confirmed): accepting a pending swap-type exchange credits both
the initiator and the recipient exactly floor((recipient item valuation +
initiator item valuation) / 4) points, increments both lifetime-earned
counters by the same amount, and marks both items sold (the stored status
the specification calls exchanged). -/
theorem C7_swap_accept_credit (db : DB) (a sid iid : Nat) (w : SwapRec)
    (rIt iIt : ItemRec) (db2 : DB)
    (hw : findSwap db sid = some w) (hty : w.type = SwapType.swap)
    (hii : w.initiatorItem = some iid)
    (hrI : db.items w.recipientItem = some rIt) (hiI : db.items iid = some iIt)
    (hne : w.initiator ≠ w.recipient)
    (h : acceptSwap db a sid = Except.ok db2) :
    (db2.users w.initiator).points =
      (db.users w.initiator).points + ((rIt.points + iIt.points) / 4 : Nat) ∧
    (db2.users w.recipient).points =
      (db.users w.recipient).points + ((rIt.points + iIt.points) / 4 : Nat) ∧
    (db2.users w.initiator).stats.totalPointsEarned =
      (db.users w.initiator).stats.totalPointsEarned +
        ((rIt.points + iIt.points) / 4 : Nat) ∧
    (db2.users w.recipient).stats.totalPointsEarned =
      (db.users w.recipient).stats.totalPointsEarned +
        ((rIt.points + iIt.points) / 4 : Nat) ∧
    (db2.items w.recipientItem).map ItemRec.status = some ItemStatus.sold ∧
    (db2.items iid).map ItemRec.status = some ItemStatus.sold := by
  obtain ⟨w2, hw2, _, _, hdb⟩ := acceptSwap_ok h
  rw [hw] at hw2
  injection hw2 with hww
  subst hww
  subst hdb
  set D1 := updSwap db sid (fun v =>
    { v with
      status := SwapStatus.accepted
      timeline := v.timeline ++
        [⟨TAction.accepted, some a, db.now, "Swap accepted"⟩] }) with hD1
  have hkey : acceptResult db a sid w =
      incEarn (incEarn (setItemStatus (setItemStatus D1 w.recipientItem
        ItemStatus.sold) iid ItemStatus.sold) w.initiator
        ((rIt.points + iIt.points) / 4)) w.recipient
        ((rIt.points + iIt.points) / 4) := by
    unfold acceptResult
    simp only [hty, hii, Option.some_bind]
    rw [← hD1]
    have h1 : (((setItemStatus (setItemStatus D1 w.recipientItem ItemStatus.sold)
        iid ItemStatus.sold).items w.recipientItem).map ItemRec.points).getD 0 =
        rIt.points := by
      rw [items_points_setItemStatus, items_points_setItemStatus]
      have hd : D1.items w.recipientItem = db.items w.recipientItem := rfl
      rw [hd, hrI]
      rfl
    have h2 : (((setItemStatus (setItemStatus D1 w.recipientItem ItemStatus.sold)
        iid ItemStatus.sold).items iid).map ItemRec.points).getD 0 =
        iIt.points := by
      rw [items_points_setItemStatus, items_points_setItemStatus]
      have hd : D1.items iid = db.items iid := rfl
      rw [hd, hiI]
      rfl
    rw [h1, h2]
  rw [hkey]
  have hitems : ∀ x, ((incEarn (incEarn (setItemStatus (setItemStatus D1
      w.recipientItem ItemStatus.sold) iid ItemStatus.sold) w.initiator
      ((rIt.points + iIt.points) / 4)) w.recipient
      ((rIt.points + iIt.points) / 4)).items x) =
      ((setItemStatus (setItemStatus D1 w.recipientItem ItemStatus.sold)
        iid ItemStatus.sold).items x) := fun x => rfl
  refine ⟨?_, ?_, ?_, ?_, ?_, ?_⟩
  · simp [incEarn, updUser, hne, hD1, updSwap, setItemStatus, updItem]
  · simp [incEarn, updUser, Ne.symm hne, hD1, updSwap, setItemStatus, updItem]
  · simp [incEarn, updUser, hne, hD1, updSwap, setItemStatus, updItem]
  · simp [incEarn, updUser, Ne.symm hne, hD1, updSwap, setItemStatus, updItem]
  · rw [hitems]
    by_cases hx : w.recipientItem = iid <;>
      simp [setItemStatus, updItem, hx, hD1, updSwap, hrI, hiI]
  · rw [hitems]
    by_cases hx : iid = w.recipientItem <;>
      simp [setItemStatus, updItem, hx, hD1, updSwap, hiI, hrI]

/-- Witness for C7_swap_accept_credit: the concrete swap of c7pre (items
worth 30 and 25 points, credit 13 each) accepted into c7post. -/
theorem C7_swap_accept_credit_witness :
    (c7post.users c7w.initiator).points =
      (c7pre.users c7w.initiator).points + ((30 + 25) / 4 : Nat) ∧
    (c7post.users c7w.recipient).points =
      (c7pre.users c7w.recipient).points + ((30 + 25) / 4 : Nat) ∧
    (c7post.users c7w.initiator).stats.totalPointsEarned =
      (c7pre.users c7w.initiator).stats.totalPointsEarned + ((30 + 25) / 4 : Nat) ∧
    (c7post.users c7w.recipient).stats.totalPointsEarned =
      (c7pre.users c7w.recipient).stats.totalPointsEarned + ((30 + 25) / 4 : Nat) ∧
    (c7post.items c7w.recipientItem).map ItemRec.status = some ItemStatus.sold ∧
    (c7post.items 11).map ItemRec.status = some ItemStatus.sold :=
  C7_swap_accept_credit c7pre 2 0 11 c7w ⟨2, 30, ItemStatus.active, true⟩
    ⟨1, 25, ItemStatus.active, true⟩ c7post rfl (by decide) (by decide)
    (by decide) (by decide) (by decide) rfl

lemma recvUpd_activePending (a n no i : Nat) (v : SwapRec)
    (hv : activePendingB no i (recvUpd a n v) = true) :
    activePendingB no i v = true := by
  rw [activePendingB_iff] at hv ⊢
  unfold recvUpd at hv
  dsimp only at hv
  split at hv <;> split at hv <;> simp_all

lemma applyOp_pendingInv {db : DB} {o : Op} {db2 : DB}
    (h : applyOp db o = Except.ok db2) (hInv : ∀ i, pendingCount db i ≤ 1) :
    ∀ i, pendingCount db2 i ≤ 1 := by
  intro i
  cases o with
  | create a r ty ii m =>
    obtain ⟨rItem, _, _, _, hdup, hdb⟩ := createSwap_ok h
    subst hdb
    unfold pendingCount
    dsimp only
    rw [List.countP_append]
    by_cases hir : r = i
    · subst hir
      have h0 : List.countP (activePendingB db.now r) db.swaps = 0 := by
        rw [List.countP_eq_zero]
        intro x hx hpx
        have : db.swaps.any (activePendingB db.now r) = true :=
          List.any_eq_true.mpr ⟨x, hx, hpx⟩
        rw [hdup] at this
        exact Bool.noConfusion this
      rw [h0]
      have h1 : List.countP (activePendingB db.now r)
          [freshSwap db a rItem r ty ii m] ≤ 1 := by
        rw [List.countP_cons, List.countP_nil]
        split <;> omega
      omega
    · have h1 : List.countP (activePendingB db.now i)
          [freshSwap db a rItem r ty ii m] = 0 := by
        simp [List.countP_cons, activePendingB, freshSwap, hir]
      rw [h1]
      have := hInv i
      unfold pendingCount at this
      omega
  | accept a sid =>
    obtain ⟨w, _, _, _, hdb⟩ := acceptSwap_ok h
    subst hdb
    obtain ⟨hnow, hswaps⟩ := acceptResult_spec db a sid w
    unfold pendingCount
    rw [hnow, hswaps]
    exact le_trans (countP_map_le (fun v hv => by simp [activePendingB] at hv))
      (hInv i)
  | reject a sid =>
    obtain ⟨w, _, _, _, hdb⟩ := rejectSwap_ok h
    subst hdb
    unfold pendingCount updSwap
    dsimp only
    exact le_trans (countP_map_le (fun v hv => by simp [activePendingB] at hv))
      (hInv i)
  | ship a sid tr =>
    obtain ⟨w, _, _, _, hdb⟩ := markShipped_ok h
    subst hdb
    obtain ⟨f, hf, hnow, hswaps⟩ := shipResult_spec db a sid w tr
    unfold pendingCount
    rw [hnow, hswaps]
    refine le_trans (countP_map_le (fun v hv => ?_)) (hInv i)
    rw [activePendingB_iff] at hv ⊢
    obtain ⟨h1, h2, h3, h4, _⟩ := hf v
    rw [h2, h3, h4] at hv
    exact hv
  | receive a sid =>
    obtain ⟨w, _, _, _, hdb⟩ := markReceived_ok h
    subst hdb
    obtain ⟨hnow, hswaps⟩ := receiveResult_spec db a sid w
    unfold pendingCount
    rw [hnow, hswaps]
    exact le_trans (countP_map_le (fun v hv => recvUpd_activePending a db.now db.now i v hv))
      (hInv i)
  | rate a sid rt c =>
    obtain ⟨w, _, _, hd⟩ := addRating_ok h
    have key : ∀ (g : SwapRec → SwapRec),
        (∀ v, activePendingB db.now i (g v) = true → activePendingB db.now i v = true) →
        db2 = updSwap db sid g → pendingCount db2 i ≤ 1 := by
      intro g hg hdb
      subst hdb
      unfold pendingCount updSwap
      dsimp only
      exact le_trans (countP_map_le hg) (hInv i)
    cases hd with
    | inl hdb =>
      exact key _ (fun v hv => by
        rw [activePendingB_iff] at hv ⊢; exact hv) hdb
    | inr hdb =>
      exact key _ (fun v hv => by
        rw [activePendingB_iff] at hv ⊢; exact hv) hdb
  | dispute a sid r d =>
    obtain ⟨w, _, hdb⟩ := raiseDispute_ok h
    subst hdb
    unfold pendingCount updSwap
    dsimp only
    refine le_trans (countP_map_le (fun v hv => ?_)) (hInv i)
    rw [activePendingB_iff] at hv ⊢
    exact hv
  | resolve a sid res notes =>
    obtain ⟨w, _, _, hdb⟩ := resolveDispute_ok h
    subst hdb
    obtain ⟨hnow, st, hst, hswaps⟩ := resolveResult_spec db a sid res notes w
    unfold pendingCount
    rw [hnow, hswaps]
    refine le_trans (countP_map_le (fun v hv => ?_)) (hInv i)
    rw [activePendingB_iff] at hv
    exact absurd hv.2.1 hst
  | buy a iid =>
    obtain ⟨item, _, _, _, hdb⟩ := buyItem_ok h
    subst hdb
    obtain ⟨hnow, hswaps⟩ := buyResult_spec db a iid item
    unfold pendingCount
    rw [hnow, hswaps, List.countP_append]
    have h1 : List.countP (activePendingB db.now i) [purchaseSwap db a iid item] = 0 := by
      simp [List.countP_cons, activePendingB, purchaseSwap]
    rw [h1]
    have := hInv i
    unfold pendingCount at this
    omega
  | destroyItem a iid =>
    obtain ⟨item, _, _, hdb⟩ := deleteItem_ok h
    subst hdb
    obtain ⟨hnow, hswaps⟩ := deleteResult_spec db a iid
    unfold pendingCount
    rw [hnow, hswaps]
    exact hInv i
  | tick d =>
    simp only [applyOp, Except.ok.injEq] at h
    subst h
    unfold pendingCount
    dsimp only
    refine le_trans (List.countP_mono_left (fun v _ hv => ?_)) (hInv i)
    rw [activePendingB_iff] at hv ⊢
    exact ⟨hv.1, hv.2.1, by omega⟩

/-- C3 (amended): at most one pending unexpired exchange references any
item as recipientItem in every state reachable from an empty swap
collection, and a create request against an item that already has a
pending unexpired exchange never succeeds (it is rejected by the
duplicate-request guard).  Once the first pending exchange has passed its
expiresAt, however, the guard no longer applies, a second create succeeds,
and two exchanges with status pending may reference the same item — the
claim's stronger invariant fails. -/
theorem C3_pending_reservation :
    (∀ s0 s, Reachable s0 s → s0.swaps = [] → ∀ i, pendingCount s i ≤ 1) ∧
    (∀ (db : DB) (a r : Nat) (ty : SwapType) (ii : Option Nat)
      (m : Option String) (db2 : DB),
      db.swaps.any (activePendingB db.now r) = true →
      createSwap db a r ty ii m ≠ Except.ok db2) := by
  constructor
  · intro s0 s hr h0
    induction hr with
    | refl =>
      intro i
      unfold pendingCount
      rw [h0]
      simp
    | step hstep hok ih => exact applyOp_pendingInv hok ih
  · intro db a r ty ii m db2 hany hok
    obtain ⟨_, _, _, _, hdup, _⟩ := createSwap_ok hok
    rw [hany] at hdup
    exact Bool.noConfusion hdup

/-- Witness for C3_pending_reservation: the invariant evaluated on the
two-step run create-then-expire against dbC. -/
theorem C3_pending_reservation_witness :
    pendingCount c3mid 10 ≤ 1 :=
  C3_pending_reservation.1 dbC c3mid
    (Reachable.step
      (Reachable.step (Reachable.refl dbC)
        (show applyOp dbC (Op.create 1 10 SwapType.redeem none none) =
          Except.ok (runOp dbC (Op.create 1 10 SwapType.redeem none none)) from rfl))
      (show applyOp (runOp dbC (Op.create 1 10 SwapType.redeem none none))
          (Op.tick expiryWindow) = Except.ok c3mid from rfl))
    rfl 10

/-- C3 counterexample: after the first pending exchange on item 10 passes
its expiry, a second create against the same item succeeds, leaving two
exchanges with status pending (so two pending-or-accepted exchanges)
referencing item 10 — the claim's invariant and its failure requirement
are both violated in this state. -/
theorem C3_counterexample :
    applyOp c3mid (Op.create 4 10 SwapType.redeem none none) = Except.ok c3s ∧
    c3s.swaps.countP (fun w => decide (w.recipientItem = 10 ∧
      (w.status = SwapStatus.pending ∨ w.status = SwapStatus.accepted))) = 2 :=
  ⟨rfl, by decide⟩

lemma recvUpd_timeline (a n : Nat) (v : SwapRec) :
    ∃ t, (recvUpd a n v).timeline = v.timeline ++ t := by
  unfold recvUpd
  dsimp only
  split <;> split <;>
    first
      | exact ⟨_, List.append_assoc _ _ _⟩
      | exact ⟨_, rfl⟩

lemma recvUpd_timeline_lt (a n : Nat) (v : SwapRec) :
    v.timeline.length < (recvUpd a n v).timeline.length := by
  unfold recvUpd
  dsimp only
  split <;> split <;> simp

lemma prefix_preserved_map (l : List SwapRec) (sid : Nat) (g : SwapRec → SwapRec)
    (hg : ∀ v, (g v).id = v.id ∧ ∃ t, (g v).timeline = v.timeline ++ t) :
    ∀ w ∈ l, ∃ w2, w2 ∈ l.map (fun v => if v.id = sid then g v else v) ∧
      w2.id = w.id ∧ ∃ t, w2.timeline = w.timeline ++ t := by
  intro w hw
  refine ⟨_, List.mem_map_of_mem _ hw, ?_, ?_⟩
  · split
    · exact (hg w).1
    · rfl
  · split
    · exact (hg w).2
    · exact ⟨[], by simp⟩

lemma timeline_frame_map (l : List SwapRec) (sid : Nat) (g : SwapRec → SwapRec)
    (hg : ∀ v, (g v).id = v.id ∧ (g v).timeline = v.timeline) :
    ∀ w ∈ l, ∃ w2, w2 ∈ l.map (fun v => if v.id = sid then g v else v) ∧
      w2.id = w.id ∧ w2.timeline = w.timeline := by
  intro w hw
  refine ⟨_, List.mem_map_of_mem _ hw, ?_, ?_⟩
  · split
    · exact (hg w).1
    · rfl
  · split
    · exact (hg w).2
    · rfl

lemma prefix_preserved_of_swaps_eq {l : List SwapRec} {l2 : List SwapRec}
    (h : ∀ w ∈ l, ∃ w2, w2 ∈ l2 ∧ w2.id = w.id ∧ ∃ t, w2.timeline = w.timeline ++ t) :
    ∀ w ∈ l, ∃ w2, w2 ∈ l2 ∧ w2.id = w.id ∧ ∃ t, w2.timeline = w.timeline ++ t := h

lemma findSwap_swaps_map {db db2 : DB} {sid : Nat} {g : SwapRec → SwapRec}
    {w : SwapRec} (hw : findSwap db sid = some w)
    (hswaps : db2.swaps = db.swaps.map (fun v => if v.id = sid then g v else v))
    (hg : ∀ v, (g v).id = v.id) :
    findSwap db2 sid = some (g w) := by
  unfold findSwap at *
  have hid : w.id = sid := by simpa using List.find?_some hw
  rw [hswaps, find?_map_patch db.swaps sid g hg, hw]
  simp [hid]

/-- C8 (amended): the timeline is append-only under every operation (the
prior timeline of every swap is a prefix of its new timeline, unmodified),
and the six operations create, accept, reject, markShipped, markReceived
and raiseDispute each append at least one entry; but the two remaining
mutating operations, rate and resolveDispute, append no entry at all —
they leave every timeline exactly as it was. -/
theorem C8_timeline (db : DB) (o : Op) (db2 : DB)
    (h : applyOp db o = Except.ok db2) :
    (∀ w ∈ db.swaps, ∃ w2, w2 ∈ db2.swaps ∧ w2.id = w.id ∧
      ∃ t, w2.timeline = w.timeline ++ t) ∧
    (∀ a sid, (o = Op.accept a sid ∨ o = Op.reject a sid ∨ o = Op.receive a sid ∨
        (∃ tr, o = Op.ship a sid tr) ∨ (∃ r d, o = Op.dispute a sid r d)) →
      ∃ w w2, findSwap db sid = some w ∧ findSwap db2 sid = some w2 ∧
        w.timeline.length < w2.timeline.length) ∧
    (∀ a r ty ii m, o = Op.create a r ty ii m →
      ∃ w2, w2 ∈ db2.swaps ∧ w2.id = db.nextSwapId ∧ w2.timeline ≠ []) ∧
    (∀ a sid rt c, o = Op.rate a sid rt c →
      ∀ w ∈ db.swaps, ∃ w2, w2 ∈ db2.swaps ∧ w2.id = w.id ∧
        w2.timeline = w.timeline) ∧
    (∀ a sid rs n, o = Op.resolve a sid rs n →
      ∀ w ∈ db.swaps, ∃ w2, w2 ∈ db2.swaps ∧ w2.id = w.id ∧
        w2.timeline = w.timeline) := by
  cases o with
  | create a0 r0 ty0 ii0 m0 =>
    obtain ⟨rItem, _, _, _, _, hdb⟩ := createSwap_ok h
    subst hdb
    refine ⟨?_, ?_, ?_, ?_, ?_⟩
    · intro w hw
      exact ⟨w, List.mem_append_left _ hw, rfl, [], by simp⟩
    · intro a sid hcase
      rcases hcase with hc | hc | hc | ⟨tr2, hc⟩ | ⟨r2, d2, hc⟩ <;>
        exact Op.noConfusion hc
    · intro a r ty ii m hc
      injection hc with h1 h2 h3 h4 h5
      subst h1; subst h2; subst h3; subst h4; subst h5
      exact ⟨freshSwap db a0 rItem r0 ty0 ii0 m0,
        List.mem_append_right _ (List.mem_singleton_self _), rfl, by simp [freshSwap]⟩
    · intro a sid rt c hc
      exact Op.noConfusion hc
    · intro a sid rs n hc
      exact Op.noConfusion hc
  | accept a0 sid0 =>
    obtain ⟨w, hw, _, _, hdb⟩ := acceptSwap_ok h
    subst hdb
    obtain ⟨hnow, hswaps⟩ := acceptResult_spec db a0 sid0 w
    refine ⟨?_, ?_, ?_, ?_, ?_⟩
    · rw [show (acceptResult db a0 sid0 w).swaps = _ from hswaps]
      exact prefix_preserved_map db.swaps sid0 _ (fun v => ⟨rfl, _, rfl⟩)
    · intro a sid hcase
      rcases hcase with hc | hc | hc | ⟨tr2, hc⟩ | ⟨r2, d2, hc⟩ <;>
        try exact Op.noConfusion hc
      injection hc with h1 h2
      subst h1; subst h2
      exact ⟨w, _, hw, findSwap_swaps_map hw hswaps (fun v => rfl), by simp⟩
    · intro a r ty ii m hc
      exact Op.noConfusion hc
    · intro a sid rt c hc
      exact Op.noConfusion hc
    · intro a sid rs n hc
      exact Op.noConfusion hc
  | reject a0 sid0 =>
    obtain ⟨w, hw, _, _, hdb⟩ := rejectSwap_ok h
    subst hdb
    refine ⟨?_, ?_, ?_, ?_, ?_⟩
    · exact prefix_preserved_map db.swaps sid0 _ (fun v => ⟨rfl, _, rfl⟩)
    · intro a sid hcase
      rcases hcase with hc | hc | hc | ⟨tr2, hc⟩ | ⟨r2, d2, hc⟩ <;>
        try exact Op.noConfusion hc
      injection hc with h1 h2
      subst h1; subst h2
      exact ⟨w, _, hw, findSwap_swaps_map hw rfl (fun v => rfl), by simp⟩
    · intro a r ty ii m hc
      exact Op.noConfusion hc
    · intro a sid rt c hc
      exact Op.noConfusion hc
    · intro a sid rs n hc
      exact Op.noConfusion hc
  | ship a0 sid0 tr0 =>
    obtain ⟨w, hw, _, _, hdb⟩ := markShipped_ok h
    subst hdb
    obtain ⟨f, hf, hnow, hswaps⟩ := shipResult_spec db a0 sid0 w tr0
    refine ⟨?_, ?_, ?_, ?_, ?_⟩
    · rw [show (shipResult db a0 sid0 w tr0).swaps = _ from hswaps]
      refine prefix_preserved_map db.swaps sid0 f (fun v => ?_)
      obtain ⟨h1, _, _, _, e, he⟩ := hf v
      exact ⟨h1, [e], he⟩
    · intro a sid hcase
      rcases hcase with hc | hc | hc | ⟨tr2, hc⟩ | ⟨r2, d2, hc⟩ <;>
        try exact Op.noConfusion hc
      injection hc with h1 h2 h3
      subst h1; subst h2
      refine ⟨w, f w, hw,
        findSwap_swaps_map hw hswaps (fun v => (hf v).1), ?_⟩
      obtain ⟨_, _, _, _, e, he⟩ := hf w
      rw [he]
      simp
    · intro a r ty ii m hc
      exact Op.noConfusion hc
    · intro a sid rt c hc
      exact Op.noConfusion hc
    · intro a sid rs n hc
      exact Op.noConfusion hc
  | receive a0 sid0 =>
    obtain ⟨w, hw, _, _, hdb⟩ := markReceived_ok h
    subst hdb
    obtain ⟨hnow, hswaps⟩ := receiveResult_spec db a0 sid0 w
    refine ⟨?_, ?_, ?_, ?_, ?_⟩
    · rw [show (receiveResult db a0 sid0 w).swaps = _ from hswaps]
      exact prefix_preserved_map db.swaps sid0 _
        (fun v => ⟨recvUpd_id a0 db.now v, recvUpd_timeline a0 db.now v⟩)
    · intro a sid hcase
      rcases hcase with hc | hc | hc | ⟨tr2, hc⟩ | ⟨r2, d2, hc⟩ <;>
        try exact Op.noConfusion hc
      injection hc with h1 h2
      subst h1; subst h2
      exact ⟨w, _, hw,
        findSwap_swaps_map hw hswaps (fun v => recvUpd_id a0 db.now v),
        recvUpd_timeline_lt a0 db.now w⟩
    · intro a r ty ii m hc
      exact Op.noConfusion hc
    · intro a sid rt c hc
      exact Op.noConfusion hc
    · intro a sid rs n hc
      exact Op.noConfusion hc
  | rate a0 sid0 rt0 c0 =>
    obtain ⟨w, hw, _, hd⟩ := addRating_ok h
    have key : ∀ (g : SwapRec → SwapRec), db2 = updSwap db sid0 g →
        (∀ v, (g v).id = v.id) → (∀ v, (g v).timeline = v.timeline) →
        (∀ w ∈ db.swaps, ∃ w2, w2 ∈ db2.swaps ∧ w2.id = w.id ∧
          ∃ t, w2.timeline = w.timeline ++ t) ∧
        (∀ w ∈ db.swaps, ∃ w2, w2 ∈ db2.swaps ∧ w2.id = w.id ∧
          w2.timeline = w.timeline) := by
      intro g hdb hgid hgtl
      subst hdb
      constructor
      · exact prefix_preserved_map db.swaps sid0 g
          (fun v => ⟨hgid v, [], by simp [hgtl v]⟩)
      · exact timeline_frame_map db.swaps sid0 g (fun v => ⟨hgid v, hgtl v⟩)
    have koncl : (∀ w ∈ db.swaps, ∃ w2, w2 ∈ db2.swaps ∧ w2.id = w.id ∧
          ∃ t, w2.timeline = w.timeline ++ t) ∧
        (∀ w ∈ db.swaps, ∃ w2, w2 ∈ db2.swaps ∧ w2.id = w.id ∧
          w2.timeline = w.timeline) := by
      rcases hd with hdb | hdb
      · exact key _ hdb (fun v => rfl) (fun v => rfl)
      · exact key _ hdb (fun v => rfl) (fun v => rfl)
    refine ⟨koncl.1, ?_, ?_, ?_, ?_⟩
    · intro a sid hcase
      rcases hcase with hc | hc | hc | ⟨tr2, hc⟩ | ⟨r2, d2, hc⟩ <;>
        exact Op.noConfusion hc
    · intro a r ty ii m hc
      exact Op.noConfusion hc
    · intro a sid rt c hc
      injection hc with h1 h2 h3 h4
      subst h1; subst h2
      exact koncl.2
    · intro a sid rs n hc
      exact Op.noConfusion hc
  | dispute a0 sid0 r0 d0 =>
    obtain ⟨w, hw, hdb⟩ := raiseDispute_ok h
    subst hdb
    refine ⟨?_, ?_, ?_, ?_, ?_⟩
    · exact prefix_preserved_map db.swaps sid0 _ (fun v => ⟨rfl, _, rfl⟩)
    · intro a sid hcase
      rcases hcase with hc | hc | hc | ⟨tr2, hc⟩ | ⟨r2, d2, hc⟩ <;>
        try exact Op.noConfusion hc
      injection hc with h1 h2 h3 h4
      subst h1; subst h2
      exact ⟨w, _, hw, findSwap_swaps_map hw rfl (fun v => rfl), by simp⟩
    · intro a r ty ii m hc
      exact Op.noConfusion hc
    · intro a sid rt c hc
      exact Op.noConfusion hc
    · intro a sid rs n hc
      exact Op.noConfusion hc
  | resolve a0 sid0 res0 n0 =>
    obtain ⟨w, hw, _, hdb⟩ := resolveDispute_ok h
    subst hdb
    obtain ⟨hnow, st, hst, hswaps⟩ := resolveResult_spec db a0 sid0 res0 n0 w
    refine ⟨?_, ?_, ?_, ?_, ?_⟩
    · rw [show (resolveResult db a0 sid0 res0 n0 w).swaps = _ from hswaps]
      exact prefix_preserved_map db.swaps sid0 _ (fun v => ⟨rfl, [], by simp⟩)
    · intro a sid hcase
      rcases hcase with hc | hc | hc | ⟨tr2, hc⟩ | ⟨r2, d2, hc⟩ <;>
        exact Op.noConfusion hc
    · intro a r ty ii m hc
      exact Op.noConfusion hc
    · intro a sid rt c hc
      exact Op.noConfusion hc
    · intro a sid rs n hc
      injection hc with h1 h2 h3 h4
      subst h1; subst h2
      rw [show (resolveResult db a0 sid0 res0 n0 w).swaps = _ from hswaps]
      exact timeline_frame_map db.swaps sid0 _ (fun v => ⟨rfl, rfl⟩)
  | buy a0 iid0 =>
    obtain ⟨item, _, _, _, hdb⟩ := buyItem_ok h
    subst hdb
    obtain ⟨hnow, hswaps⟩ := buyResult_spec db a0 iid0 item
    refine ⟨?_, ?_, ?_, ?_, ?_⟩
    · intro w hw
      rw [show (buyResult db a0 iid0 item).swaps = _ from hswaps]
      exact ⟨w, List.mem_append_left _ hw, rfl, [], by simp⟩
    · intro a sid hcase
      rcases hcase with hc | hc | hc | ⟨tr2, hc⟩ | ⟨r2, d2, hc⟩ <;>
        exact Op.noConfusion hc
    · intro a r ty ii m hc
      exact Op.noConfusion hc
    · intro a sid rt c hc
      exact Op.noConfusion hc
    · intro a sid rs n hc
      exact Op.noConfusion hc
  | destroyItem a0 iid0 =>
    obtain ⟨item, _, _, hdb⟩ := deleteItem_ok h
    subst hdb
    refine ⟨?_, ?_, ?_, ?_, ?_⟩
    · intro w hw
      exact ⟨w, hw, rfl, [], by simp⟩
    · intro a sid hcase
      rcases hcase with hc | hc | hc | ⟨tr2, hc⟩ | ⟨r2, d2, hc⟩ <;>
        exact Op.noConfusion hc
    · intro a r ty ii m hc
      exact Op.noConfusion hc
    · intro a sid rt c hc
      exact Op.noConfusion hc
    · intro a sid rs n hc
      exact Op.noConfusion hc
  | tick d0 =>
    simp only [applyOp, Except.ok.injEq] at h
    subst h
    refine ⟨?_, ?_, ?_, ?_, ?_⟩
    · intro w hw
      exact ⟨w, hw, rfl, [], by simp⟩
    · intro a sid hcase
      rcases hcase with hc | hc | hc | ⟨tr2, hc⟩ | ⟨r2, d2, hc⟩ <;>
        exact Op.noConfusion hc
    · intro a r ty ii m hc
      exact Op.noConfusion hc
    · intro a sid rt c hc
      exact Op.noConfusion hc
    · intro a sid rs n hc
      exact Op.noConfusion hc

/-- Witness for C8_timeline: the rate operation on the completed exchange
of c8s leaves the timeline of its swap document unchanged. -/
theorem C8_timeline_witness :
    ∃ w2, w2 ∈ c8t.swaps ∧ w2.id = c8w.id ∧ w2.timeline = c8w.timeline :=
  (C8_timeline c8s (Op.rate 1 0 5 none) c8t rfl).2.2.2.1 1 0 5 none rfl
    c8w (by decide)

/-- C8 counterexample: rating the completed swap of c8s succeeds and
mutates the record (the initiator rating becomes set) yet appends no
timeline entry: the timeline has 5 entries before and after. -/
theorem C8_counterexample :
    applyOp c8s (Op.rate 1 0 5 none) = Except.ok c8t ∧
    (findSwap c8s 0).map (fun v => v.timeline.length) = some 5 ∧
    (findSwap c8t 0).map (fun v => v.timeline.length) = some 5 ∧
    (findSwap c8t 0).map (fun v => v.initiatorRating.isSome) = some true :=
  ⟨rfl, by decide, by decide, by decide⟩

end ReWear
